import Mathlib

/-!
# Vending machine dispense orchestration (`backend/mqtt.js`)

A shallow embedding of the module `backend/mqtt.js`: the shelf health
bookkeeping (`shelfStatus`, `lastHeartbeat`), the order partitioner inside
`sendOrderMQTT`, the dispense session (`processNextShelf`, `processNextItem`,
the `"message"` handler, the deadline timer) and the fan-out to the websocket
clients (`wsClients.forEach(client => client.send(..))`).

Modelling conventions.

* JavaScript numbers that the module handles are integers (product ids,
  quantities, shelf numbers, `Date.now()` milliseconds): they are `Int`.
  `NaN` (from `parseInt`) and `null` are `none`.
* Strings are Lean strings; the few string library functions the module
  uses (`startsWith`, `split(..)[0]`, `split(..).pop()`, `parseInt`,
  template literals on integers) are defined on the character lists.
* The module-level `let` variables are the fields of `State`.  Effects on
  the outside world (MQTT publishes, websocket sends, settling the promise)
  are returned as a list of `Output`s, in the order they happen.
* A websocket client whose `send` raises is a `WsClient` with
  `sendThrows = true`; an exception that leaves a function is the flag
  `threw` of the result.
* Armed timers are kept in `State.timers`; the runtime firing one is the
  function `onTimeout`.
-/

namespace Vending

/-! ## JavaScript string helpers -/

/-- Decimal rendering of an integer, as a template literal renders a
JavaScript integer number. -/
def jsNumStr (n : Int) : String :=
  if n < 0 then String.mk ('-' :: Nat.toDigits 10 n.natAbs)
  else String.mk (Nat.toDigits 10 n.toNat)

/-- The head of `s.split(sep)`: the characters before the first separator. -/
def jsSplitFirst (sep : Char) (s : String) : String :=
  String.mk (s.data.takeWhile (fun c => c != sep))

/-- The last element of `s.split(sep)` (`.pop()`): the characters after the
last separator. -/
def jsSplitLast (sep : Char) (s : String) : String :=
  String.mk (s.data.reverse.takeWhile (fun c => c != sep)).reverse

/-- The method `String.prototype.startsWith`. -/
def jsStartsWith (s pre : String) : Bool :=
  pre.data.isPrefixOf s.data

/-- White space skipped by `parseInt` (ECMAScript `WhiteSpace` and
`LineTerminator`). -/
def jsIsWhite (c : Char) : Bool :=
  let n := c.toNat
  n = 0x09 || n = 0x0A || n = 0x0B || n = 0x0C || n = 0x0D || n = 0x20 ||
  n = 0xA0 || n = 0x1680 || (0x2000 ≤ n && n ≤ 0x200A) || n = 0x2028 ||
  n = 0x2029 || n = 0x202F || n = 0x205F || n = 0x3000 || n = 0xFEFF

/-- Value of a character as a digit in the given radix (10 or 16). -/
def jsDigitVal (radix : Nat) (c : Char) : Option Nat :=
  let n := c.toNat
  if 48 ≤ n ∧ n ≤ 57 then some (n - 48)
  else if radix = 16 ∧ 97 ≤ n ∧ n ≤ 102 then some (n - 87)
  else if radix = 16 ∧ 65 ≤ n ∧ n ≤ 70 then some (n - 55)
  else none

/-- Value of a list of digits, most significant first. -/
def jsDigitsVal (radix : Nat) (ds : List Char) : Nat :=
  ds.foldl (fun acc c => acc * radix + (jsDigitVal radix c).getD 0) 0

/-- Strip an optional sign: the flag says whether it was `-`. -/
def jsStripSign (cs : List Char) : Bool × List Char :=
  match cs with
  | [] => (false, [])
  | c :: t => if c = '-' then (true, t) else if c = '+' then (false, t) else (false, c :: t)

/-- Strip an optional `0x` / `0X` prefix: the first component is the radix. -/
def jsStripRadix (cs : List Char) : Nat × List Char :=
  match cs with
  | c :: d :: t => if c = '0' ∧ (d = 'x' ∨ d = 'X') then (16, t) else (10, c :: d :: t)
  | cs => (10, cs)

/-- The global `parseInt(s)` without a radix argument; `none` is `NaN`. -/
def jsParseInt (s : String) : Option Int :=
  let cs := s.data.dropWhile jsIsWhite
  let sg := jsStripSign cs
  let rx := jsStripRadix sg.2
  let ds := rx.2.takeWhile (fun c => (jsDigitVal rx.1 c).isSome)
  if ds = [] then none
  else if sg.1 then some (-(jsDigitsVal rx.1 ds : Int)) else some (jsDigitsVal rx.1 ds : Int)

/-! ## Data model -/

/-- A per-shelf table, the JavaScript object with the keys `1` .. `5`. -/
structure PerShelf (α : Type) where
  s1 : α
  s2 : α
  s3 : α
  s4 : α
  s5 : α
  deriving DecidableEq, Repr

/-- The lookup `table[k]`; `none` is `undefined` (no such key). -/
def PerShelf.get? {α : Type} (t : PerShelf α) (k : Int) : Option α :=
  if k = 1 then some t.s1 else if k = 2 then some t.s2 else if k = 3 then some t.s3
  else if k = 4 then some t.s4 else if k = 5 then some t.s5 else none

/-- The assignment `table[k] = v` for a key `1` .. `5` (the module assigns no
other key). -/
def PerShelf.set {α : Type} (t : PerShelf α) (k : Int) (v : α) : PerShelf α :=
  if k = 1 then { t with s1 := v } else if k = 2 then { t with s2 := v }
  else if k = 3 then { t with s3 := v } else if k = 4 then { t with s4 := v }
  else if k = 5 then { t with s5 := v } else t

/-- An element of the `products` array: `{ id, quantity }`. -/
structure Product where
  id : Int
  quantity : Int
  deriving DecidableEq, Repr

/-- The `status` strings of an `orderStatus` message. -/
inductive ItemStatus
  | Dispensing
  | Dispensed
  | Failed
  | Disconnected
  deriving DecidableEq, Repr

/-- The objects passed to `JSON.stringify` and sent to the websocket
clients. -/
inductive StatusEvent
  | orderStatus (id : Option Int) (status : ItemStatus)
  | orderComplete (success : Bool)
  deriving DecidableEq, Repr

/-- A websocket client: an identity and whether its `send` raises. -/
structure WsClient where
  ident : Nat
  sendThrows : Bool
  deriving DecidableEq, Repr

/-- Errors that reject the promise of `sendOrderMQTT`. -/
inductive OrderError
  | noValidItems
  | sendFailed (client : Nat)
  deriving DecidableEq, Repr

/-- Effects on the outside world. -/
inductive Output
  | mqttPublish (topic : String) (payload : String)
  | wsSend (client : Nat) (ev : StatusEvent)
  | resolved (req : Nat)
  | rejected (req : Nat) (err : OrderError)
  deriving DecidableEq, Repr

/-- An armed timer: its handle, its delay in milliseconds and the `id`
string captured by its callback. -/
structure Timer where
  handle : Nat
  delay : Nat
  id : String
  deriving DecidableEq, Repr

/-- An element of `orderQueue`: `{ shelf, items }`. -/
structure Batch where
  shelf : Int
  items : List String
  deriving DecidableEq, Repr

/-- The health tables of the module. -/
structure Health where
  shelfStatus : PerShelf Bool
  lastHeartbeat : PerShelf Int
  deriving DecidableEq, Repr

/-- The module-level variables of `mqtt.js`, the armed timers and the
counter that names the next timer. -/
structure State where
  health : Health
  currentShelf : Option Int
  currentItems : List String
  orderQueue : List Batch
  processing : Bool
  currentResolve : Option Nat
  currentReject : Option Nat
  timeoutId : Option Nat
  wsClients : List WsClient
  timers : List Timer
  nextTimer : Nat
  deriving DecidableEq, Repr

/-- What a call leaves behind: the state, the effects in order, and whether
an exception left the call (with the client whose `send` raised). -/
structure Res where
  st : State
  out : List Output
  threw : Option Nat
  deriving DecidableEq, Repr

/-- The module state right after loading. -/
def State.init : State :=
  { health := { shelfStatus := ⟨false, false, false, false, false⟩,
                lastHeartbeat := ⟨0, 0, 0, 0, 0⟩ },
    currentShelf := none, currentItems := [], orderQueue := [], processing := false,
    currentResolve := none, currentReject := none, timeoutId := none,
    wsClients := [], timers := [], nextTimer := 0 }

/-! ## Shelf health -/

/-- Truthiness of `shelfStatus[k]`. -/
def Health.online (h : Health) (k : Int) : Bool :=
  (h.shelfStatus.get? k).getD false

/-- One iteration of the sweep loop (lines 23-25). -/
def Health.sweepShelf (now : Int) (h : Health) (shelf : Int) : Health :=
  match h.lastHeartbeat.get? shelf with
  | some t => if now - t > 30000 then { h with shelfStatus := h.shelfStatus.set shelf false } else h
  | none => h

/-- The `setInterval` callback (lines 20-27), `now` being `Date.now()`. -/
def Health.sweep (now : Int) (h : Health) : Health :=
  [1, 2, 3, 4, 5].foldl (Health.sweepShelf now) h

/-- The `"close"` handler (lines 47-50). -/
def Health.close (h : Health) : Health :=
  [1, 2, 3, 4, 5].foldl (fun h shelf => { h with shelfStatus := h.shelfStatus.set shelf false }) h

/-- The heartbeat branch of the `"message"` handler (lines 55-60) for the
parsed shelf number. -/
def Health.heartbeat (now : Int) (shelf : Option Int) (h : Health) : Health :=
  match shelf with
  | some k =>
    if 1 ≤ k ∧ k ≤ 5 then
      { shelfStatus := h.shelfStatus.set k true, lastHeartbeat := h.lastHeartbeat.set k now }
    else h
  | none => h

/-- The function `getEsp32Status`. -/
def getEsp32Status (s : State) : Bool :=
  [s.health.shelfStatus.s1, s.health.shelfStatus.s2, s.health.shelfStatus.s3,
   s.health.shelfStatus.s4, s.health.shelfStatus.s5].any (fun status => status)

/-! ## Fan-out to the websocket clients -/

/-- The loop `wsClients.forEach((client) => client.send(JSON.stringify(ev)))`:
the sends made, in order, and the client whose `send` raised, if any (the
loop stops there). -/
def wsForEachSend (ev : StatusEvent) : List WsClient → List Output × Option Nat
  | [] => ([], none)
  | c :: cs =>
    if c.sendThrows then ([], some c.ident)
    else ((Output.wsSend c.ident ev) :: (wsForEachSend ev cs).1, (wsForEachSend ev cs).2)

/-! ## Timers -/

/-- The assignment `timeoutId = setTimeout(callback, 15000)`, the callback
capturing `id`. -/
def State.setTimeout (s : State) (id : String) : State :=
  { s with timers := s.timers ++ [{ handle := s.nextTimer, delay := 15000, id := id }],
           timeoutId := some s.nextTimer,
           nextTimer := s.nextTimer + 1 }

/-- The call `clearTimeout(timeoutId)`. -/
def State.clearTimeout (s : State) : State :=
  match s.timeoutId with
  | some h => { s with timers := s.timers.filter (fun t => t.handle != h) }
  | none => s

/-! ## The dispense session -/

/-- Truthiness of `shelfStatus[currentShelf]`. -/
def State.shelfOnline (s : State) : Bool :=
  match s.currentShelf with
  | some k => s.health.online k
  | none => false

/-- The template literal with `currentShelf` in it. -/
def jsShelfStr (shelf : Option Int) : String :=
  match shelf with
  | some k => jsNumStr k
  | none => "null"

/-- The comparison `shelf === currentShelf` (`NaN` and `null` equal
nothing that occurs here). -/
def jsStrictEq (a b : Option Int) : Bool :=
  match a, b with
  | some x, some y => x == y
  | _, _ => false

/-- The number `parseInt(id)` for `const [id] = item.split(",")`. -/
def itemId (item : String) : Option Int :=
  jsParseInt (jsSplitFirst ',' item)

mutual

/-- The function `processNextShelf` (lines 129-150). -/
def processNextShelf (s : State) : Res :=
  match hq : s.orderQueue with
  | [] =>
    let s1 := { s with processing := false }
    let b := wsForEachSend (.orderComplete true) s1.wsClients
    match b.2 with
    | some c => { st := s1, out := b.1, threw := some c }
    | none =>
      match s1.currentResolve with
      | some req =>
        { st := { s1 with currentResolve := none, currentReject := none },
          out := b.1 ++ [Output.resolved req], threw := none }
      | none => { st := s1, out := b.1, threw := none }
  | batch :: rest =>
    processNextItem
      { s with orderQueue := rest, currentShelf := some batch.shelf, currentItems := batch.items }
termination_by (s.orderQueue.length, 0)
decreasing_by
  simp only [hq, List.length_cons]
  exact Prod.Lex.left _ _ (Nat.lt_succ_self _)

/-- The function `processNextItem` (lines 152-204). -/
def processNextItem (s : State) : Res :=
  match hi : s.currentItems with
  | [] => processNextShelf s
  | item :: rest =>
    let id := jsSplitFirst ',' item
    if !s.shelfOnline then
      let b := wsForEachSend (.orderStatus (jsParseInt id) .Disconnected) s.wsClients
      match b.2 with
      | some c => { st := s, out := b.1, threw := some c }
      | none =>
        let r := processNextItem { s with currentItems := rest }
        { st := r.st, out := b.1 ++ r.out, threw := r.threw }
    else
      let pub := Output.mqttPublish ("vending/shelf/" ++ jsShelfStr s.currentShelf) item
      let b := wsForEachSend (.orderStatus (jsParseInt id) .Dispensing) s.wsClients
      match b.2 with
      | some c => { st := s, out := pub :: b.1, threw := some c }
      | none => { st := s.setTimeout id, out := pub :: b.1, threw := none }
termination_by (s.orderQueue.length, s.currentItems.length + 1)
decreasing_by
  · simp only [hi, List.length_nil]
    exact Prod.Lex.right _ (by omega)
  · simp only [hi, List.length_cons]
    exact Prod.Lex.right _ (by omega)

end

/-- The callback of the timer armed by `processNextItem` (lines 190-203),
run by the runtime when the armed timer `handle` fires.  A handle that is
not armed never fires. -/
def onTimeout (handle : Nat) (s : State) : Res :=
  match s.timers.find? (fun t => t.handle == handle) with
  | none => { st := s, out := [], threw := none }
  | some t =>
    let s1 := { s with timers := s.timers.filter (fun u => u.handle != handle) }
    let b := wsForEachSend (.orderStatus (jsParseInt t.id) .Failed) s1.wsClients
    match b.2 with
    | some c => { st := s1, out := b.1, threw := some c }
    | none =>
      let r := processNextItem { s1 with currentItems := s1.currentItems.tail }
      { st := r.st, out := b.1 ++ r.out, threw := r.threw }

/-- The `"message"` handler (lines 52-92); `now` is `Date.now()`.  Its
`try`/`catch` swallows every exception, so it never throws. -/
def onMessage (now : Int) (topic message : String) (s : State) : Res :=
  if jsStartsWith topic "vending/heartbit/" then
    let shelf := jsParseInt (jsSplitLast '/' topic)
    { st := { s with health := s.health.heartbeat now shelf }, out := [], threw := none }
  else if jsStartsWith topic "vending/response/" && decide (s.currentItems.length > 0) then
    let shelf := jsParseInt (jsSplitLast '/' topic)
    let response := message
    if jsStrictEq shelf s.currentShelf then
      let s1 := s.clearTimeout
      let id := jsSplitFirst ',' (s1.currentItems.headD "")
      let status := if response = "success" then ItemStatus.Dispensed else ItemStatus.Failed
      let b := wsForEachSend (.orderStatus (jsParseInt id) status) s1.wsClients
      match b.2 with
      | some _ => { st := s1, out := b.1, threw := none }
      | none =>
        let r := processNextItem { s1 with currentItems := s1.currentItems.tail }
        { st := r.st, out := b.1 ++ r.out, threw := none }
    else { st := s, out := [], threw := none }
  else { st := s, out := [], threw := none }

/-! ## The order partitioner and `sendOrderMQTT` -/

/-- The string pushed for a product, the template literal with id and
quantity separated by a comma. -/
def encodeItem (p : Product) : String :=
  jsNumStr p.id ++ "," ++ jsNumStr p.quantity

/-- The body of `products.forEach` (lines 98-106). -/
def routeProduct (shelves : PerShelf (List String)) (p : Product) : PerShelf (List String) :=
  let id := p.id
  let quantity := p.quantity
  if id ≥ 1 ∧ id ≤ 4 then { shelves with s1 := shelves.s1 ++ [jsNumStr id ++ "," ++ jsNumStr quantity] }
  else if id ≥ 5 ∧ id ≤ 8 then { shelves with s2 := shelves.s2 ++ [jsNumStr id ++ "," ++ jsNumStr quantity] }
  else if id ≥ 9 ∧ id ≤ 16 then { shelves with s3 := shelves.s3 ++ [jsNumStr id ++ "," ++ jsNumStr quantity] }
  else if id ≥ 17 ∧ id ≤ 24 then { shelves with s4 := shelves.s4 ++ [jsNumStr id ++ "," ++ jsNumStr quantity] }
  else if id ≥ 25 ∧ id ≤ 32 then { shelves with s5 := shelves.s5 ++ [jsNumStr id ++ "," ++ jsNumStr quantity] }
  else shelves

/-- The table `shelves` after `products.forEach` (lines 96-106). -/
def routeAll (products : List Product) : PerShelf (List String) :=
  products.foldl routeProduct ⟨[], [], [], [], []⟩

/-- One iteration of the loop of lines 110-115 on `(orderQueue, hasItems)`. -/
def queueShelf (shelves : PerShelf (List String)) (acc : List Batch × Bool) (s : Int) :
    List Batch × Bool :=
  if ((shelves.get? s).getD []).length > 0 then
    (acc.1 ++ [{ shelf := s, items := (shelves.get? s).getD [] }], true)
  else acc

/-- The pair `(orderQueue, hasItems)` after lines 108-115. -/
def buildQueue (products : List Product) : List Batch × Bool :=
  [5, 4, 3, 2, 1].foldl (queueShelf (routeAll products)) ([], false)

/-- The function `sendOrderMQTT` (lines 94-127); `req` names the promise it
returns.  An exception inside the promise executor rejects the promise. -/
def sendOrderMQTT (req : Nat) (products : List Product) (s : State) : Res :=
  let q := buildQueue products
  let s1 := { s with orderQueue := q.1 }
  if !q.2 then
    { st := s1, out := [Output.rejected req OrderError.noValidItems], threw := none }
  else
    let s2 := { s1 with currentResolve := some req, currentReject := some req, processing := true }
    let r := processNextShelf s2
    match r.threw with
    | some c => { st := r.st, out := r.out ++ [Output.rejected req (OrderError.sendFailed c)],
                  threw := none }
    | none => r

/-! ## Definitions used by the statements -/

/-- A character is one of `0` .. `9`. -/
def IsDecChar (c : Char) : Prop := 48 ≤ c.toNat ∧ c.toNat ≤ 57

/-- Routing table as the spec states it: shelf 1 for ids 1-4, shelf 2 for
5-8, shelf 3 for 9-16, shelf 4 for 17-24, shelf 5 for 25-32, no shelf
otherwise. -/
def specShelfOf (id : Int) : Option Int :=
  if 1 ≤ id ∧ id ≤ 4 then some 1
  else if 5 ≤ id ∧ id ≤ 8 then some 2
  else if 9 ≤ id ∧ id ≤ 16 then some 3
  else if 17 ≤ id ∧ id ≤ 24 then some 4
  else if 25 ≤ id ∧ id ≤ 32 then some 5
  else none

/-- The products of the input that the spec routes to shelf `k`, in input
order. -/
def specRouted (products : List Product) (k : Int) : List Product :=
  products.filter (fun p => specShelfOf p.id = some k)

/-- The items of the batches of shelf `k` in a queue. -/
def itemsOfShelf (queue : List Batch) (k : Int) : List String :=
  (queue.filter (fun b => b.shelf = k)).flatMap (fun b => b.items)

/-- The batch of shelf `k` for an input as the spec describes it: the
routed products encoded in input order, and no batch when nothing is routed
to the shelf. -/
def specBatch (products : List Product) (k : Int) : List Batch :=
  if specRouted products k = [] then []
  else [{ shelf := k, items := (specRouted products k).map encodeItem }]

/-- The order queue as the spec describes it: the non-empty batches by
descending shelf id. -/
def specQueue (products : List Product) : List Batch :=
  specBatch products 5 ++ (specBatch products 4 ++ (specBatch products 3 ++
    (specBatch products 2 ++ specBatch products 1)))

/-- The sends that deliver one status event to every client, in
registration order. -/
def emitAll (clients : List WsClient) (ev : StatusEvent) : List Output :=
  clients.map (fun c => Output.wsSend c.ident ev)

/-- An output that rejects a promise. -/
def Output.isRejected : Output → Bool
  | .rejected _ _ => true
  | _ => false

/-- A state in which shelf 1 serves the item `1,1` and its timer 0 is armed,
shelf 1 being online, with one websocket client. -/
def awaitingShelf1 : State :=
  { health := { shelfStatus := ⟨true, false, false, false, false⟩,
                lastHeartbeat := ⟨1000, 0, 0, 0, 0⟩ },
    currentShelf := some 1, currentItems := ["1,1"], orderQueue := [], processing := true,
    currentResolve := some 7, currentReject := some 7, timeoutId := some 0,
    wsClients := [{ ident := 0, sendThrows := false }],
    timers := [{ handle := 0, delay := 15000, id := "1" }], nextTimer := 1 }

/-- A state in which `processNextItem` is about to reach the item `30,2` of
shelf 5, with `1,1` of shelf 1 queued behind, shelf 5 being offline and shelf
1 online, with one websocket client. -/
def reachingShelf5 : State :=
  { health := { shelfStatus := ⟨true, false, false, false, false⟩,
                lastHeartbeat := ⟨1000, 0, 0, 0, 0⟩ },
    currentShelf := some 5, currentItems := ["30,2"],
    orderQueue := [{ shelf := 1, items := ["1,1"] }], processing := true,
    currentResolve := some 7, currentReject := some 7, timeoutId := none,
    wsClients := [{ ident := 0, sendThrows := false }],
    timers := [], nextTimer := 0 }

/-- A state in which `processNextItem` is about to reach the item `1,1` of
shelf 1, the last item of the order, shelf 1 being online and no timer
pending, with one websocket client. -/
def reachingShelf1 : State :=
  { health := { shelfStatus := ⟨true, false, false, false, false⟩,
                lastHeartbeat := ⟨1000, 0, 0, 0, 0⟩ },
    currentShelf := some 1, currentItems := ["1,1"], orderQueue := [], processing := true,
    currentResolve := some 7, currentReject := some 7, timeoutId := none,
    wsClients := [{ ident := 0, sendThrows := false }],
    timers := [], nextTimer := 0 }

/-- Three websocket clients, the second of which raises on `send`. -/
def clientsSecondThrows : List WsClient :=
  [{ ident := 0, sendThrows := false }, { ident := 1, sendThrows := true },
   { ident := 2, sendThrows := false }]

/-- The state `awaitingShelf1` with the clients `clientsSecondThrows` and a
second item `2,1` waiting behind `1,1`. -/
def awaitingShelf1Throwing : State :=
  { awaitingShelf1 with currentItems := ["1,1", "2,1"], wsClients := clientsSecondThrows }

/-! ## The other handlers, and runs of the module -/

/-- The `setInterval` callback (lines 20-27) on the module state. -/
def onSweep (now : Int) (s : State) : Res :=
  { st := { s with health := s.health.sweep now }, out := [], threw := none }

/-- The `"close"` handler (lines 47-50) on the module state. -/
def onClose (s : State) : Res :=
  { st := { s with health := s.health.close }, out := [], threw := none }

/-- Sequencing of two turns of the event loop: an exception that leaves a
turn is uncaught and ends the run. -/
def Res.andThen (r : Res) (f : State → Res) : Res :=
  match r.threw with
  | some _ => r
  | none => { st := (f r.st).st, out := r.out ++ (f r.st).out, threw := (f r.st).threw }

/-- Events that happen while an item is awaited and touch the health tables
only: a heartbeat message of a shelf, a sweep, a transport disconnect. -/
inductive Ambient
  | heartbeat (shelf : Int) (now : Int) (payload : String)
  | sweep (now : Int)
  | close
  deriving DecidableEq, Repr

/-- How an ambient event reaches the module. -/
def Ambient.run : Ambient → State → Res
  | .heartbeat shelf now payload, s =>
    onMessage now ("vending/heartbit/" ++ jsNumStr shelf) payload s
  | .sweep now, s => onSweep now s
  | .close, s => onClose s

/-- What ends the wait for an item: a response of the shelf being served, or
the deadline. -/
inductive Trigger
  | response (now : Int) (payload : String)
  | deadline
  deriving DecidableEq, Repr

/-- How a trigger reaches the module: a message on the response topic of the
shelf being served, or the runtime firing the timer `timeoutId`. -/
def Trigger.run : Trigger → State → Res
  | .response now payload, s =>
    onMessage now ("vending/response/" ++ jsShelfStr s.currentShelf) payload s
  | .deadline, s =>
    match s.timeoutId with
    | some h => onTimeout h s
    | none => { st := s, out := [], threw := none }

/-- One wait: ambient events, then the trigger. -/
def playSegment (seg : List Ambient × Trigger) (s : State) : Res :=
  Res.andThen
    (seg.1.foldl (fun (r : Res) (a : Ambient) => r.andThen a.run)
      { st := s, out := [], threw := none })
    seg.2.run

/-- A run of the module over a list of waits. -/
def playFrom : List (List Ambient × Trigger) → State → Res
  | [], s => { st := s, out := [], threw := none }
  | seg :: sc, s => (playSegment seg s).andThen (playFrom sc)

/-! ## The run of an order as the spec describes it -/

/-- Effect of an ambient event on the health tables. -/
def Ambient.apply : Ambient → Health → Health
  | .heartbeat shelf now _, h => h.heartbeat now (some shelf)
  | .sweep now, h => h.sweep now
  | .close, h => h.close

/-- The outcome status of an awaited item: `Dispensed` for the response
`"success"`, `Failed` for any other response and for the deadline. -/
def Trigger.status : Trigger → ItemStatus
  | .response _ payload => if payload = "success" then .Dispensed else .Failed
  | .deadline => .Failed

/-- The items of an order in visiting order as the spec states it: batch by
batch in descending shelf id, within a batch in input order; each with its
shelf. -/
def specVisit (products : List Product) : List (Int × Product) :=
  [5, 4, 3, 2, 1].flatMap (fun k => (specRouted products k).map (fun p => (k, p)))

/-- The effects of an order as the spec states them, item after item in
visiting order: `Disconnected` for an item whose shelf is offline when it is
reached; otherwise the command, `Dispensing`, and, once the wait ends, the
outcome; after the last item `orderComplete` and the resolution of the
request.  The health tables follow the ambient events of each wait. -/
def specTrace (req : Nat) (clients : List WsClient) :
    Health → List (Int × Product) → List (List Ambient × Trigger) → List Output
  | _, [], _ => emitAll clients (.orderComplete true) ++ [Output.resolved req]
  | h, (k, p) :: rest, sc =>
    if h.online k then
      Output.mqttPublish ("vending/shelf/" ++ jsNumStr k) (encodeItem p) ::
        (emitAll clients (.orderStatus (some p.id) .Dispensing) ++
          match sc with
          | [] => []
          | seg :: sc' =>
            emitAll clients (.orderStatus (some p.id) seg.2.status) ++
              specTrace req clients (seg.1.foldl (fun h a => a.apply h) h) rest sc')
    else
      emitAll clients (.orderStatus (some p.id) .Disconnected) ++
        specTrace req clients h rest sc

/-- Whether the run of an order, as the spec states it, reaches the end of
the last batch. -/
def specDrained : Health → List (Int × Product) → List (List Ambient × Trigger) → Bool
  | _, [], _ => true
  | h, (k, _) :: rest, sc =>
    if h.online k then
      match sc with
      | [] => false
      | seg :: sc' => specDrained (seg.1.foldl (fun h a => a.apply h) h) rest sc'
    else specDrained h rest sc

/-- An effect that belongs to an item: a command or an `orderStatus`
event. -/
def Output.isItemLevel : Output → Bool
  | .mqttPublish _ _ => true
  | .wsSend _ (.orderStatus _ _) => true
  | _ => false

/-- The batch that `sendOrderMQTT` queues for the products of one shelf. -/
def encodeBatch (g : Int × List Product) : Batch :=
  { shelf := g.1, items := g.2.map encodeItem }

/-- The visiting list of a list of per-shelf groups. -/
def visitGroups (gs : List (Int × List Product)) : List (Int × Product) :=
  gs.flatMap (fun g => g.2.map (fun p => (g.1, p)))

/-- What a run from a point of the session is compared with: the effects
and the progress the spec states for the items still to visit. -/
def RunsAs (req : Nat) (clients : List WsClient) (h : Health)
    (visit : List (Int × Product)) (sc : List (List Ambient × Trigger)) (r : Res) : Prop :=
  r.out = specTrace req clients h visit sc ∧ r.threw = none ∧
    r.st.processing = !specDrained h visit sc

/-- The per-shelf groups of an order in descending shelf id, the empty ones
left out. -/
def specGroups (products : List Product) : List (Int × List Product) :=
  ([5, 4, 3, 2, 1].map (fun k => (k, specRouted products k))).filter (fun g => !g.2.isEmpty)

/-- The module right after loading, with shelf 1 heard from and online and
one websocket client connected. -/
def idleShelf1Online : State :=
  { State.init with
    health := { shelfStatus := ⟨true, false, false, false, false⟩,
                lastHeartbeat := ⟨1000, 0, 0, 0, 0⟩ },
    wsClients := [{ ident := 0, sendThrows := false }] }

/-- Two websocket clients, the second of which raises on `send`. -/
def clientsOkRaising : List WsClient :=
  [{ ident := 0, sendThrows := false }, { ident := 1, sendThrows := true }]

/-- The module right after loading (every shelf offline) with the clients
`clientsOkRaising` connected. -/
def allOfflineRaising : State :=
  { State.init with wsClients := clientsOkRaising }

/-- The state `idleShelf1Online` with the clients `clientsOkRaising`. -/
def idleShelf1OnlineRaising : State :=
  { idleShelf1Online with wsClients := clientsOkRaising }

/-- The state `reachingShelf5` with the clients `clientsSecondThrows`. -/
def reachingShelf5Throwing : State :=
  { reachingShelf5 with wsClients := clientsSecondThrows }

/-! # Theorems -/

/-! ## Decimal rendering and `parseInt` -/

theorem digitChar_toNat (m : Nat) (hm : m < 10) : (Nat.digitChar m).toNat = 48 + m := by
  interval_cases m <;> rfl

theorem jsDigitVal_dec (r : Nat) (c : Char) (h : IsDecChar c) :
    jsDigitVal r c = some (c.toNat - 48) := by
  unfold jsDigitVal
  exact if_pos h

theorem jsDigitsVal_snoc (r : Nat) (ds : List Char) (c : Char) :
    jsDigitsVal r (ds ++ [c]) = jsDigitsVal r ds * r + (jsDigitVal r c).getD 0 := by
  simp [jsDigitsVal, List.foldl_append]

/-- The accumulator of `Nat.toDigitsCore` stays behind the digits. -/
theorem toDigitsCore_acc (fuel : Nat) (n : Nat) (acc : List Char) :
    Nat.toDigitsCore 10 fuel n acc = Nat.toDigitsCore 10 fuel n [] ++ acc := by
  induction fuel generalizing n acc with
  | zero => simp [Nat.toDigitsCore]
  | succ fuel ih =>
    by_cases hq : n / 10 = 0
    · simp [Nat.toDigitsCore, hq]
    · simp only [Nat.toDigitsCore, hq, if_false]
      rw [ih (n / 10) (_ :: acc), ih (n / 10) [_]]
      simp

/-- The last decimal digit of a number, as a character and as a value. -/
theorem lastDigit_dec (n : Nat) :
    IsDecChar (Nat.digitChar (n % 10)) ∧
      (jsDigitVal 10 (Nat.digitChar (n % 10))).getD 0 = n % 10 := by
  have hlt : n % 10 < 10 := Nat.mod_lt _ (by decide)
  have hc : IsDecChar (Nat.digitChar (n % 10)) := by
    unfold IsDecChar
    rw [digitChar_toNat _ hlt]
    omega
  refine ⟨hc, ?_⟩
  rw [jsDigitVal_dec 10 _ hc, digitChar_toNat _ hlt]
  simp

/-- With fuel above the number, `Nat.toDigitsCore` on the empty accumulator
is a non-empty run of decimal digits whose value is the number. -/
theorem toDigitsCore_run (fuel : Nat) (n : Nat) (hfuel : n < fuel) :
    Nat.toDigitsCore 10 fuel n [] ≠ [] ∧
      (∀ c ∈ Nat.toDigitsCore 10 fuel n [], IsDecChar c) ∧
      jsDigitsVal 10 (Nat.toDigitsCore 10 fuel n []) = n := by
  induction fuel generalizing n with
  | zero => omega
  | succ fuel ih =>
    obtain ⟨hd, hv⟩ := lastDigit_dec n
    by_cases hq : n / 10 = 0
    · have hcore : Nat.toDigitsCore 10 (fuel + 1) n [] = [] ++ [Nat.digitChar (n % 10)] := by
        simp [Nat.toDigitsCore, hq]
      rw [hcore]
      refine ⟨by simp, ?_, ?_⟩
      · intro c hc
        simp only [List.nil_append, List.mem_singleton] at hc
        rw [hc]
        exact hd
      · rw [jsDigitsVal_snoc, hv]
        simp only [jsDigitsVal, List.foldl_nil]
        omega
    · have hcore : Nat.toDigitsCore 10 (fuel + 1) n [] =
          Nat.toDigitsCore 10 fuel (n / 10) [] ++ [Nat.digitChar (n % 10)] := by
        simp only [Nat.toDigitsCore, hq, if_false]
        exact toDigitsCore_acc fuel (n / 10) _
      obtain ⟨_, hall, hval⟩ := ih (n / 10) (by omega)
      rw [hcore]
      refine ⟨by simp, ?_, ?_⟩
      · intro c hc
        rcases List.mem_append.mp hc with hc | hc
        · exact hall c hc
        · rw [List.mem_singleton] at hc
          rw [hc]
          exact hd
      · rw [jsDigitsVal_snoc, hval, hv]
        omega

theorem toDigits_dec (n : Nat) :
    Nat.toDigits 10 n ≠ [] ∧ (∀ c ∈ Nat.toDigits 10 n, IsDecChar c) ∧
      jsDigitsVal 10 (Nat.toDigits 10 n) = n :=
  toDigitsCore_run (n + 1) n (Nat.lt_succ_self n)

theorem jsIsWhite_dec (c : Char) (h : IsDecChar c) : jsIsWhite c = false := by
  unfold IsDecChar at h
  unfold jsIsWhite
  simp only [Bool.or_eq_false_iff, decide_eq_false_iff_not, Bool.and_eq_false_iff]
  omega

theorem takeWhile_all {α : Type} (p : α → Bool) (l : List α) (h : ∀ a ∈ l, p a = true) :
    l.takeWhile p = l := by
  induction l with
  | nil => rfl
  | cons a t ih =>
    rw [List.takeWhile_cons, h a (List.mem_cons_self a t), if_pos rfl,
      ih (fun b hb => h b (List.mem_cons_of_mem a hb))]

theorem jsStripSign_dec (ds : List Char) (h : ∀ c ∈ ds, IsDecChar c) :
    jsStripSign ds = (false, ds) := by
  cases ds with
  | nil => rfl
  | cons c t =>
    have hc := h c (List.mem_cons_self c t)
    have h1 : c ≠ '-' := by
      intro e; rw [e] at hc; unfold IsDecChar at hc; revert hc; decide
    have h2 : c ≠ '+' := by
      intro e; rw [e] at hc; unfold IsDecChar at hc; revert hc; decide
    simp [jsStripSign, h1, h2]

theorem jsStripRadix_dec (ds : List Char) (h : ∀ c ∈ ds, IsDecChar c) :
    jsStripRadix ds = (10, ds) := by
  match ds, h with
  | [], _ => rfl
  | [_], _ => rfl
  | c :: d :: t, h =>
    have hd := h d (List.mem_cons_of_mem c (List.mem_cons_self d t))
    have h1 : d ≠ 'x' := by
      intro e; rw [e] at hd; unfold IsDecChar at hd; revert hd; decide
    have h2 : d ≠ 'X' := by
      intro e; rw [e] at hd; unfold IsDecChar at hd; revert hd; decide
    simp [jsStripRadix, h1, h2]

/-- The function `parseInt` reads a run of decimal digits as its value. -/
theorem jsParseInt_dec (ds : List Char) (hne : ds ≠ []) (h : ∀ c ∈ ds, IsDecChar c) :
    jsParseInt (String.mk ds) = some (jsDigitsVal 10 ds : Int) := by
  have hw : ds.dropWhile jsIsWhite = ds := by
    cases ds with
    | nil => rfl
    | cons c t =>
      rw [List.dropWhile_cons, jsIsWhite_dec c (h c (List.mem_cons_self c t))]
      rfl
  have ht : ds.takeWhile (fun c => (jsDigitVal 10 c).isSome) = ds :=
    takeWhile_all _ ds (fun c hc => by rw [jsDigitVal_dec 10 c (h c hc)]; rfl)
  unfold jsParseInt
  simp only [hw, jsStripSign_dec ds h, jsStripRadix_dec ds h, ht, if_neg hne]
  rfl

/-- The function `parseInt` reads a minus sign and a run of decimal digits as
the negated value. -/
theorem jsParseInt_neg_dec (ds : List Char) (hne : ds ≠ []) (h : ∀ c ∈ ds, IsDecChar c) :
    jsParseInt (String.mk ('-' :: ds)) = some (-(jsDigitsVal 10 ds : Int)) := by
  have hw : ('-' :: ds).dropWhile jsIsWhite = '-' :: ds := by
    rw [List.dropWhile_cons]
    rfl
  have hs : jsStripSign ('-' :: ds) = (true, ds) := by
    simp [jsStripSign]
  have ht : ds.takeWhile (fun c => (jsDigitVal 10 c).isSome) = ds :=
    takeWhile_all _ ds (fun c hc => by rw [jsDigitVal_dec 10 c (h c hc)]; rfl)
  unfold jsParseInt
  simp only [hw, hs, jsStripRadix_dec ds h, ht, if_neg hne]
  rfl

/-- Reading back the rendering of an integer gives the integer. -/
theorem jsParseInt_jsNumStr (n : Int) : jsParseInt (jsNumStr n) = some n := by
  unfold jsNumStr
  by_cases hn : n < 0
  · rw [if_pos hn]
    obtain ⟨hne, hall, hval⟩ := toDigits_dec n.natAbs
    rw [jsParseInt_neg_dec _ hne hall, hval]
    congr 1
    omega
  · rw [if_neg hn]
    obtain ⟨hne, hall, hval⟩ := toDigits_dec n.toNat
    rw [jsParseInt_dec _ hne hall, hval]
    congr 1
    omega

theorem jsNumStr_injective (a b : Int) (h : jsNumStr a = jsNumStr b) : a = b := by
  have := jsParseInt_jsNumStr a
  rw [h, jsParseInt_jsNumStr b] at this
  exact (Option.some.inj this).symm

/-! ## Unfolding the session functions -/

theorem processNextShelf_nil (s : State) (h : s.orderQueue = []) :
    processNextShelf s =
      match (wsForEachSend (.orderComplete true) s.wsClients).2 with
      | some c => { st := { s with processing := false },
                    out := (wsForEachSend (.orderComplete true) s.wsClients).1, threw := some c }
      | none =>
        match s.currentResolve with
        | some req =>
          { st := { s with processing := false, currentResolve := none, currentReject := none },
            out := (wsForEachSend (.orderComplete true) s.wsClients).1 ++ [Output.resolved req],
            threw := none }
        | none => { st := { s with processing := false },
                    out := (wsForEachSend (.orderComplete true) s.wsClients).1, threw := none } := by
  rw [processNextShelf]
  split
  · rfl
  · rename_i b rest hq
    rw [h] at hq
    cases hq

theorem processNextShelf_cons (s : State) (batch : Batch) (rest : List Batch)
    (h : s.orderQueue = batch :: rest) :
    processNextShelf s =
      processNextItem
        { s with orderQueue := rest, currentShelf := some batch.shelf,
                 currentItems := batch.items } := by
  rw [processNextShelf]
  split
  · rename_i hq
    rw [h] at hq
    cases hq
  · rename_i b r hq
    rw [h] at hq
    cases hq
    rfl

theorem processNextItem_nil (s : State) (h : s.currentItems = []) :
    processNextItem s = processNextShelf s := by
  rw [processNextItem]
  split
  · rfl
  · rename_i b r hq
    rw [h] at hq
    cases hq

theorem processNextItem_cons (s : State) (item : String) (rest : List String)
    (h : s.currentItems = item :: rest) :
    processNextItem s =
      if !s.shelfOnline then
        match (wsForEachSend (.orderStatus (itemId item) .Disconnected) s.wsClients).2 with
        | some c => { st := s,
                      out := (wsForEachSend (.orderStatus (itemId item) .Disconnected) s.wsClients).1,
                      threw := some c }
        | none =>
          { st := (processNextItem { s with currentItems := rest }).st,
            out := (wsForEachSend (.orderStatus (itemId item) .Disconnected) s.wsClients).1 ++
                     (processNextItem { s with currentItems := rest }).out,
            threw := (processNextItem { s with currentItems := rest }).threw }
      else
        match (wsForEachSend (.orderStatus (itemId item) .Dispensing) s.wsClients).2 with
        | some c =>
          { st := s,
            out := Output.mqttPublish ("vending/shelf/" ++ jsShelfStr s.currentShelf) item ::
                     (wsForEachSend (.orderStatus (itemId item) .Dispensing) s.wsClients).1,
            threw := some c }
        | none =>
          { st := s.setTimeout (jsSplitFirst ',' item),
            out := Output.mqttPublish ("vending/shelf/" ++ jsShelfStr s.currentShelf) item ::
                     (wsForEachSend (.orderStatus (itemId item) .Dispensing) s.wsClients).1,
            threw := none } := by
  rw [processNextItem]
  split
  · rename_i hq
    rw [h] at hq
    cases hq
  · rename_i b r hq
    rw [h] at hq
    cases hq
    rfl

/-! ## The order partitioner -/

theorem foldl_routeProduct (ps : List Product) : ∀ acc : PerShelf (List String),
    ps.foldl routeProduct acc =
      { s1 := acc.s1 ++ (specRouted ps 1).map encodeItem,
        s2 := acc.s2 ++ (specRouted ps 2).map encodeItem,
        s3 := acc.s3 ++ (specRouted ps 3).map encodeItem,
        s4 := acc.s4 ++ (specRouted ps 4).map encodeItem,
        s5 := acc.s5 ++ (specRouted ps 5).map encodeItem } := by
  induction ps with
  | nil => intro acc; simp [specRouted]
  | cons p ps ih =>
    intro acc
    rw [List.foldl_cons, ih]
    unfold routeProduct specRouted
    by_cases h1 : 1 ≤ p.id ∧ p.id ≤ 4
    · simp [specShelfOf, h1, encodeItem]
    · by_cases h2 : 5 ≤ p.id ∧ p.id ≤ 8
      · simp [specShelfOf, h1, h2, encodeItem]
      · by_cases h3 : 9 ≤ p.id ∧ p.id ≤ 16
        · simp [specShelfOf, h1, h2, h3, encodeItem]
        · by_cases h4 : 17 ≤ p.id ∧ p.id ≤ 24
          · simp [specShelfOf, h1, h2, h3, h4, encodeItem]
          · by_cases h5 : 25 ≤ p.id ∧ p.id ≤ 32
            · simp [specShelfOf, h1, h2, h3, h4, h5, encodeItem]
            · simp [specShelfOf, h1, h2, h3, h4, h5]

theorem routeAll_eq (ps : List Product) :
    routeAll ps =
      { s1 := (specRouted ps 1).map encodeItem, s2 := (specRouted ps 2).map encodeItem,
        s3 := (specRouted ps 3).map encodeItem, s4 := (specRouted ps 4).map encodeItem,
        s5 := (specRouted ps 5).map encodeItem } := by
  unfold routeAll
  rw [foldl_routeProduct]
  simp

theorem queueShelf_eq (ps : List Product) (acc : List Batch × Bool) (k : Int)
    (hk : 1 ≤ k ∧ k ≤ 5) :
    queueShelf (routeAll ps) acc k =
      (acc.1 ++ specBatch ps k, acc.2 || !(specBatch ps k).isEmpty) := by
  have hget : ((routeAll ps).get? k).getD [] = (specRouted ps k).map encodeItem := by
    rw [routeAll_eq]
    unfold PerShelf.get?
    obtain ⟨h1, h5⟩ := hk
    have : k = 1 ∨ k = 2 ∨ k = 3 ∨ k = 4 ∨ k = 5 := by omega
    rcases this with rfl | rfl | rfl | rfl | rfl <;> simp
  unfold queueShelf specBatch
  rw [hget]
  by_cases he : specRouted ps k = []
  · simp [he]
  · have : ((specRouted ps k).map encodeItem).length > 0 := by
      rw [List.length_map]
      exact List.length_pos.mpr he
    simp [he, this]

/-- Lines 96-115 build the queue the spec describes, and `hasItems` says
whether it is non-empty. -/
theorem buildQueue_eq (ps : List Product) :
    buildQueue ps = (specQueue ps, !(specQueue ps).isEmpty) := by
  unfold buildQueue
  simp only [List.foldl_cons, List.foldl_nil]
  rw [queueShelf_eq ps _ 5 (by decide), queueShelf_eq ps _ 4 (by decide),
    queueShelf_eq ps _ 3 (by decide), queueShelf_eq ps _ 2 (by decide),
    queueShelf_eq ps _ 1 (by decide)]
  unfold specQueue
  simp only [List.nil_append, List.append_assoc, Bool.false_or, Bool.or_assoc]
  congr 1
  cases specBatch ps 5 <;> cases specBatch ps 4 <;> cases specBatch ps 3 <;>
    cases specBatch ps 2 <;> cases specBatch ps 1 <;> rfl

/-! ## Encoded items -/

theorem jsNumStr_no_comma (n : Int) : ∀ c ∈ (jsNumStr n).data, c ≠ ',' := by
  intro c hc e
  unfold jsNumStr at hc
  by_cases hn : n < 0
  · rw [if_pos hn] at hc
    rcases List.mem_cons.mp hc with h | h
    · rw [e] at h; revert h; decide
    · have := (toDigits_dec n.natAbs).2.1 c h
      rw [e] at this; unfold IsDecChar at this; revert this; decide
  · rw [if_neg hn] at hc
    have := (toDigits_dec n.toNat).2.1 c hc
    rw [e] at this; unfold IsDecChar at this; revert this; decide

theorem encodeItem_data (p : Product) :
    (encodeItem p).data = (jsNumStr p.id).data ++ ',' :: (jsNumStr p.quantity).data := by
  unfold encodeItem
  simp [String.data_append]

theorem takeWhile_append_stop {α : Type} (q : α → Bool) (l : List α) (a : α) (t : List α)
    (hl : ∀ x ∈ l, q x = true) (ha : q a = false) : (l ++ a :: t).takeWhile q = l := by
  induction l with
  | nil => simp [List.takeWhile_cons, ha]
  | cons x l ih =>
    rw [List.cons_append, List.takeWhile_cons, hl x (List.mem_cons_self x l), if_pos rfl,
      ih (fun y hy => hl y (List.mem_cons_of_mem x hy))]

/-- The destructuring `const [id] = item.split(",")` gives back the rendered
product id. -/
theorem jsSplitFirst_encodeItem (p : Product) :
    jsSplitFirst ',' (encodeItem p) = jsNumStr p.id := by
  unfold jsSplitFirst
  rw [encodeItem_data, takeWhile_append_stop]
  · intro x hx
    simpa using jsNumStr_no_comma p.id x hx
  · simp

/-- The id announced for an encoded item is the id of the product. -/
theorem itemId_encodeItem (p : Product) : itemId (encodeItem p) = some p.id := by
  unfold itemId
  rw [jsSplitFirst_encodeItem, jsParseInt_jsNumStr]

theorem encodeItem_injective : Function.Injective encodeItem := by
  intro p q h
  have hid : p.id = q.id := by
    have := itemId_encodeItem p
    rw [h, itemId_encodeItem q] at this
    exact (Option.some.inj this).symm
  have hd := congrArg String.data h
  rw [encodeItem_data, encodeItem_data, hid] at hd
  have hq := List.cons.inj (List.append_cancel_left hd)
  have hqty : p.quantity = q.quantity :=
    jsNumStr_injective _ _ (String.ext hq.2)
  cases p; cases q
  simp only at hid hqty
  rw [hid, hqty]

/-! ## The queue of an order -/

theorem itemsOfShelf_append (q r : List Batch) (k : Int) :
    itemsOfShelf (q ++ r) k = itemsOfShelf q k ++ itemsOfShelf r k := by
  simp [itemsOfShelf, List.filter_append, List.flatMap_append]

theorem itemsOfShelf_specBatch (ps : List Product) (j k : Int) :
    itemsOfShelf (specBatch ps j) k = if j = k then (specRouted ps k).map encodeItem else [] := by
  unfold specBatch itemsOfShelf
  by_cases he : specRouted ps j = []
  · by_cases hjk : j = k
    · subst hjk; simp [he]
    · simp [he, hjk]
  · by_cases hjk : j = k
    · subst hjk; simp [he]
    · simp [he, hjk]

theorem specShelfOf_range (id k : Int) (h : specShelfOf id = some k) : 1 ≤ k ∧ k ≤ 5 := by
  unfold specShelfOf at h
  split_ifs at h <;> simp at h <;> omega

theorem specRouted_out_of_range (ps : List Product) (k : Int) (hk : ¬ (1 ≤ k ∧ k ≤ 5)) :
    specRouted ps k = [] := by
  unfold specRouted
  rw [List.filter_eq_nil_iff]
  intro p _ hp
  exact hk (specShelfOf_range p.id k (of_decide_eq_true hp))

theorem itemsOfShelf_specQueue (ps : List Product) (k : Int) :
    itemsOfShelf (specQueue ps) k = (specRouted ps k).map encodeItem := by
  unfold specQueue
  simp only [itemsOfShelf_append, itemsOfShelf_specBatch]
  by_cases hk : 1 ≤ k ∧ k ≤ 5
  · obtain ⟨h1, h5⟩ := hk
    have : k = 1 ∨ k = 2 ∨ k = 3 ∨ k = 4 ∨ k = 5 := by omega
    rcases this with rfl | rfl | rfl | rfl | rfl <;> simp
  · rw [specRouted_out_of_range ps k hk]
    have h1 : (1 : Int) ≠ k := by omega
    have h2 : (2 : Int) ≠ k := by omega
    have h3 : (3 : Int) ≠ k := by omega
    have h4 : (4 : Int) ≠ k := by omega
    have h5 : (5 : Int) ≠ k := by omega
    simp [h1, h2, h3, h4, h5]

theorem mem_specBatch (ps : List Product) (j : Int) (b : Batch) (h : b ∈ specBatch ps j) :
    b = { shelf := j, items := (specRouted ps j).map encodeItem } ∧ specRouted ps j ≠ [] := by
  unfold specBatch at h
  by_cases he : specRouted ps j = []
  · simp [he] at h
  · simp [he] at h
    exact ⟨h, he⟩

theorem mem_specQueue (ps : List Product) (b : Batch) (h : b ∈ specQueue ps) :
    (1 ≤ b.shelf ∧ b.shelf ≤ 5) ∧ b.items = (specRouted ps b.shelf).map encodeItem ∧
      specRouted ps b.shelf ≠ [] := by
  unfold specQueue at h
  simp only [List.mem_append] at h
  rcases h with h | h | h | h | h <;>
    obtain ⟨rfl, hne⟩ := mem_specBatch ps _ b h <;>
    exact ⟨by simp, rfl, hne⟩

theorem mem_specRouted (ps : List Product) (k : Int) (p : Product) :
    p ∈ specRouted ps k ↔ p ∈ ps ∧ specShelfOf p.id = some k := by
  simp [specRouted]

/-- C1: for every list of products, the queue built by `sendOrderMQTT`
(lines 96-115) holds, in the batch of shelf `k`, exactly the encodings of the
products whose id the routing table sends to shelf `k` (1-4, 5-8, 9-16,
17-24, 25-32 for shelves 1 to 5): such a product's encoding occurs there as
many times as the product occurs in the input and in no batch of another
shelf, and a product whose id is outside 1..32 occurs in no batch. -/
theorem sendOrderMQTT_routes_by_id_range (products : List Product) :
    (∀ k : Int, itemsOfShelf (buildQueue products).1 k =
        (specRouted products k).map encodeItem) ∧
    (∀ (p : Product) (k : Int), specShelfOf p.id = some k →
        (itemsOfShelf (buildQueue products).1 k).count (encodeItem p) = products.count p ∧
        ∀ b ∈ (buildQueue products).1, b.shelf ≠ k → encodeItem p ∉ b.items) ∧
    (∀ p : Product, ¬ (1 ≤ p.id ∧ p.id ≤ 32) →
        ∀ b ∈ (buildQueue products).1, encodeItem p ∉ b.items) := by
  rw [buildQueue_eq]
  refine ⟨fun k => itemsOfShelf_specQueue products k, ?_, ?_⟩
  · intro p k hp
    refine ⟨?_, ?_⟩
    · rw [itemsOfShelf_specQueue, List.count_map_of_injective _ _ encodeItem_injective]
      unfold specRouted
      rw [List.count_filter]
      simp [hp]
    · intro b hb hne hmem
      obtain ⟨_, hitems, _⟩ := mem_specQueue products b hb
      rw [hitems, List.mem_map] at hmem
      obtain ⟨q, hq, he⟩ := hmem
      have := encodeItem_injective he
      subst this
      have := ((mem_specRouted products b.shelf q).mp hq).2
      rw [hp] at this
      exact hne (Option.some.inj this).symm
  · intro p hp b hb hmem
    obtain ⟨_, hitems, _⟩ := mem_specQueue products b hb
    rw [hitems, List.mem_map] at hmem
    obtain ⟨q, hq, he⟩ := hmem
    have := encodeItem_injective he
    subst this
    have h := ((mem_specRouted products b.shelf q).mp hq).2
    unfold specShelfOf at h
    split_ifs at h <;> omega

/-- C1 at the order `[{id:1,quantity:1},{id:30,quantity:2},{id:40,quantity:1}]`
and the product `{id:30,quantity:2}`, which the table sends to shelf 5. -/
theorem sendOrderMQTT_routes_by_id_range_witness :
    specShelfOf (30 : Int) = some 5 ∧
    (itemsOfShelf (buildQueue [⟨1, 1⟩, ⟨30, 2⟩, ⟨40, 1⟩]).1 5).count (encodeItem ⟨30, 2⟩) =
      ([⟨1, 1⟩, ⟨30, 2⟩, ⟨40, 1⟩] : List Product).count ⟨30, 2⟩ ∧
    ¬ (1 ≤ (40 : Int) ∧ (40 : Int) ≤ 32) ∧
    ∀ b ∈ (buildQueue [⟨1, 1⟩, ⟨30, 2⟩, ⟨40, 1⟩]).1, encodeItem ⟨40, 1⟩ ∉ b.items :=
  ⟨by decide,
   ((sendOrderMQTT_routes_by_id_range [⟨1, 1⟩, ⟨30, 2⟩, ⟨40, 1⟩]).2.1 ⟨30, 2⟩ 5 (by decide)).1,
   by decide,
   (sendOrderMQTT_routes_by_id_range [⟨1, 1⟩, ⟨30, 2⟩, ⟨40, 1⟩]).2.2 ⟨40, 1⟩ (by decide)⟩

theorem specQueue_shelves_sublist (ps : List Product) :
    ((specQueue ps).map (fun b => b.shelf)).Sublist [5, 4, 3, 2, 1] := by
  have hb : ∀ k : Int, ((specBatch ps k).map (fun b => b.shelf)).Sublist [k] := by
    intro k
    unfold specBatch
    split_ifs <;> simp
  unfold specQueue
  simp only [List.map_append]
  exact (hb 5).append ((hb 4).append ((hb 3).append ((hb 2).append (hb 1))))

/-- C2: for every list of products, the queue built by `sendOrderMQTT` has
strictly descending shelf ids (so no shelf occurs twice), has no empty
batch, and every batch lists the encodings of the products routed to its
shelf in input order, a sublist of the encoded input. -/
theorem sendOrderMQTT_queue_descending_nonempty_stable (products : List Product) :
    ((buildQueue products).1.map (fun b => b.shelf)).Pairwise (fun a b => a > b) ∧
    (∀ b ∈ (buildQueue products).1, b.items ≠ []) ∧
    (∀ b ∈ (buildQueue products).1,
        b.items = (products.filter (fun p => specShelfOf p.id = some b.shelf)).map encodeItem ∧
        b.items.Sublist (products.map encodeItem)) := by
  rw [buildQueue_eq]
  refine ⟨?_, ?_, ?_⟩
  · exact List.Pairwise.sublist (specQueue_shelves_sublist products) (by decide)
  · intro b hb hnil
    obtain ⟨_, hitems, hne⟩ := mem_specQueue products b hb
    rw [hitems, List.map_eq_nil_iff] at hnil
    exact hne hnil
  · intro b hb
    obtain ⟨_, hitems, _⟩ := mem_specQueue products b hb
    refine ⟨hitems, ?_⟩
    rw [hitems]
    exact List.Sublist.map encodeItem (List.filter_sublist products)

/-- C2 at the order `[{id:1,quantity:1},{id:30,quantity:2},{id:2,quantity:5}]`:
the queue is shelf 5 with `30,2`, then shelf 1 with `1,1` and `2,5`. -/
theorem sendOrderMQTT_queue_descending_nonempty_stable_witness :
    (buildQueue [⟨1, 1⟩, ⟨30, 2⟩, ⟨2, 5⟩]).1 = [⟨5, ["30,2"]⟩, ⟨1, ["1,1", "2,5"]⟩] ∧
    (((buildQueue [⟨1, 1⟩, ⟨30, 2⟩, ⟨2, 5⟩]).1.map (fun b => b.shelf)).Pairwise
        (fun a b => a > b) ∧
      (∀ b ∈ (buildQueue [⟨1, 1⟩, ⟨30, 2⟩, ⟨2, 5⟩]).1, b.items ≠ []) ∧
      (∀ b ∈ (buildQueue [⟨1, 1⟩, ⟨30, 2⟩, ⟨2, 5⟩]).1,
        b.items = (([⟨1, 1⟩, ⟨30, 2⟩, ⟨2, 5⟩] : List Product).filter
            (fun p => specShelfOf p.id = some b.shelf)).map encodeItem ∧
        b.items.Sublist (([⟨1, 1⟩, ⟨30, 2⟩, ⟨2, 5⟩] : List Product).map encodeItem))) :=
  ⟨by decide, sendOrderMQTT_queue_descending_nonempty_stable [⟨1, 1⟩, ⟨30, 2⟩, ⟨2, 5⟩]⟩

/-! ## The fan-out loop -/

theorem wsForEachSend_eq (ev : StatusEvent) (cs : List WsClient) :
    wsForEachSend ev cs =
      (emitAll (cs.takeWhile (fun c => !c.sendThrows)) ev,
       (cs.find? (fun c => c.sendThrows)).map (fun c => c.ident)) := by
  induction cs with
  | nil => rfl
  | cons c cs ih =>
    unfold wsForEachSend
    by_cases hc : c.sendThrows = true
    · simp [hc, emitAll]
    · simp only [Bool.not_eq_true] at hc
      simp [hc, ih, emitAll]

theorem wsForEachSend_quiet (ev : StatusEvent) (cs : List WsClient)
    (h : ∀ c ∈ cs, c.sendThrows = false) : wsForEachSend ev cs = (emitAll cs ev, none) := by
  rw [wsForEachSend_eq]
  have h1 : cs.takeWhile (fun c => !c.sendThrows) = cs :=
    takeWhile_all _ cs (fun c hc => by simp [h c hc])
  have h2 : cs.find? (fun c => c.sendThrows) = none := by
    rw [List.find?_eq_none]
    intro c hc
    simp [h c hc]
  rw [h1, h2]
  rfl

/-- The loop stops at the first client whose `send` raises. -/
theorem wsForEachSend_stops (ev : StatusEvent) (pre : List WsClient) (c : WsClient)
    (post : List WsClient) (hpre : ∀ d ∈ pre, d.sendThrows = false)
    (hc : c.sendThrows = true) :
    wsForEachSend ev (pre ++ c :: post) = (emitAll pre ev, some c.ident) := by
  induction pre with
  | nil =>
    unfold wsForEachSend
    simp [hc, emitAll]
  | cons d pre ih =>
    have hd : d.sendThrows = false := hpre d (List.mem_cons_self d pre)
    have := ih (fun e he => hpre e (List.mem_cons_of_mem d he))
    rw [List.cons_append]
    unfold wsForEachSend
    simp [hd, this, emitAll]

theorem wsForEachSend_not_rejected (ev : StatusEvent) (cs : List WsClient) :
    ∀ o ∈ (wsForEachSend ev cs).1, o.isRejected = false := by
  rw [wsForEachSend_eq]
  intro o ho
  simp only [emitAll, List.mem_map] at ho
  obtain ⟨c, _, rfl⟩ := ho
  rfl

/-! ## Induction along the session -/

/-- Induction over the calls of `processNextShelf` (`P`) and
`processNextItem` (`Q`). -/
theorem session_induction (P Q : State → Prop)
    (hdone : ∀ s, s.orderQueue = [] → P s)
    (hshelf : ∀ s batch rest, s.orderQueue = batch :: rest →
      Q { s with orderQueue := rest, currentShelf := some batch.shelf,
                 currentItems := batch.items } → P s)
    (hnone : ∀ s, s.currentItems = [] → P s → Q s)
    (hitem : ∀ s item rest, s.currentItems = item :: rest →
      Q { s with currentItems := rest } → Q s) :
    (∀ s, P s) ∧ (∀ s, Q s) := by
  have key : ∀ n : Nat, ∀ s : State, s.orderQueue.length = n → P s ∧ Q s := by
    intro n
    induction n with
    | zero =>
      intro s hs
      have hP : ∀ t : State, t.orderQueue.length = 0 → P t :=
        fun t ht => hdone t (List.length_eq_zero.mp ht)
      have hQ : ∀ (items : List String) (t : State), t.orderQueue.length = 0 →
          t.currentItems = items → Q t := by
        intro items
        induction items with
        | nil => intro t ht hi; exact hnone t hi (hP t ht)
        | cons item rest ih =>
          intro t ht hi
          exact hitem t item rest hi (ih { t with currentItems := rest } ht rfl)
      exact ⟨hP s hs, hQ s.currentItems s hs rfl⟩
    | succ n ihn =>
      intro s hs
      have hP : ∀ t : State, t.orderQueue.length = n + 1 → P t := by
        intro t ht
        match hq : t.orderQueue with
        | [] => rw [hq] at ht; simp at ht
        | batch :: rest =>
          rw [hq] at ht
          exact hshelf t batch rest hq (ihn _ (by simpa using ht)).2
      have hQ : ∀ (items : List String) (t : State), t.orderQueue.length = n + 1 →
          t.currentItems = items → Q t := by
        intro items
        induction items with
        | nil => intro t ht hi; exact hnone t hi (hP t ht)
        | cons item rest ih =>
          intro t ht hi
          exact hitem t item rest hi (ih { t with currentItems := rest } ht rfl)
      exact ⟨hP s hs, hQ s.currentItems s hs rfl⟩
  exact ⟨fun s => (key _ s rfl).1, fun s => (key _ s rfl).2⟩

/-- Neither session function rejects a promise. -/
theorem session_not_rejected :
    (∀ s, ∀ o ∈ (processNextShelf s).out, o.isRejected = false) ∧
    (∀ s, ∀ o ∈ (processNextItem s).out, o.isRejected = false) := by
  apply session_induction
  · intro s hq o ho
    rw [processNextShelf_nil s hq] at ho
    have hb := wsForEachSend_not_rejected (.orderComplete true) s.wsClients
    split at ho
    · exact hb o ho
    · split at ho
      · rcases List.mem_append.mp ho with h | h
        · exact hb o h
        · rw [List.mem_singleton] at h
          rw [h]; rfl
      · exact hb o ho
  · intro s batch rest hq ih o ho
    rw [processNextShelf_cons s batch rest hq] at ho
    exact ih o ho
  · intro s hi ih o ho
    rw [processNextItem_nil s hi] at ho
    exact ih o ho
  · intro s item rest hi ih o ho
    rw [processNextItem_cons s item rest hi] at ho
    split at ho
    · have hb := wsForEachSend_not_rejected (.orderStatus (itemId item) .Disconnected) s.wsClients
      split at ho
      · exact hb o ho
      · rcases List.mem_append.mp ho with h | h
        · exact hb o h
        · exact ih o h
    · have hb := wsForEachSend_not_rejected (.orderStatus (itemId item) .Dispensing) s.wsClients
      split at ho
      · rcases List.mem_cons.mp ho with h | h
        · rw [h]; rfl
        · exact hb o h
      · rcases List.mem_cons.mp ho with h | h
        · rw [h]; rfl
        · exact hb o h

/-! ## Acceptance of an order -/

theorem specShelfOf_isSome (id : Int) : (specShelfOf id).isSome ↔ (1 ≤ id ∧ id ≤ 32) := by
  unfold specShelfOf
  split_ifs <;> simp <;> omega

theorem specQueue_eq_nil_iff (ps : List Product) :
    specQueue ps = [] ↔ ∀ p ∈ ps, ¬ (1 ≤ p.id ∧ p.id ≤ 32) := by
  constructor
  · intro hnil p hp hr
    have hs := (specShelfOf_isSome p.id).mpr hr
    obtain ⟨k, hk⟩ := Option.isSome_iff_exists.mp hs
    have hmem : p ∈ specRouted ps k := (mem_specRouted ps k p).mpr ⟨hp, hk⟩
    have hne : specRouted ps k ≠ [] := List.ne_nil_of_mem hmem
    have hb : specBatch ps k ≠ [] := by
      unfold specBatch
      rw [if_neg hne]
      simp
    obtain ⟨h1, h5⟩ := specShelfOf_range p.id k hk
    have : k = 1 ∨ k = 2 ∨ k = 3 ∨ k = 4 ∨ k = 5 := by omega
    unfold specQueue at hnil
    simp only [List.append_eq_nil] at hnil
    rcases this with rfl | rfl | rfl | rfl | rfl
    · exact hb hnil.2.2.2.2
    · exact hb hnil.2.2.2.1
    · exact hb hnil.2.2.1
    · exact hb hnil.2.1
    · exact hb hnil.1
  · intro h
    have he : ∀ k, specBatch ps k = [] := by
      intro k
      unfold specBatch
      rw [if_pos]
      unfold specRouted
      rw [List.filter_eq_nil_iff]
      intro p hp hk
      have hk' : specShelfOf p.id = some k := of_decide_eq_true hk
      exact h p hp ((specShelfOf_isSome p.id).mp (by rw [hk']; rfl))
    unfold specQueue
    simp [he]

/-- C3: `sendOrderMQTT` rejects with "No valid items to process" exactly when
no product of the input has an id in 1..32 (the empty list included); when it
does, the rejection is its only effect: nothing is published, no status
event is sent, and the state is the one before the call with `orderQueue`
emptied, so the completion handle is not installed, `processing` is not set
and no timer is armed. -/
theorem sendOrderMQTT_rejects_iff_no_valid_item (req : Nat) (products : List Product)
    (s : State) :
    ((∀ p ∈ products, ¬ (1 ≤ p.id ∧ p.id ≤ 32)) ↔
        Output.rejected req OrderError.noValidItems ∈ (sendOrderMQTT req products s).out) ∧
    ((∀ p ∈ products, ¬ (1 ≤ p.id ∧ p.id ≤ 32)) →
        sendOrderMQTT req products s =
          { st := { s with orderQueue := [] },
            out := [Output.rejected req OrderError.noValidItems], threw := none }) := by
  have hrej : (∀ p ∈ products, ¬ (1 ≤ p.id ∧ p.id ≤ 32)) →
      sendOrderMQTT req products s =
        { st := { s with orderQueue := [] },
          out := [Output.rejected req OrderError.noValidItems], threw := none } := by
    intro h
    have hq := (specQueue_eq_nil_iff products).mpr h
    unfold sendOrderMQTT
    simp [buildQueue_eq, hq]
  refine ⟨⟨fun h => ?_, fun h => ?_⟩, hrej⟩
  · rw [hrej h]
    exact List.mem_singleton.mpr rfl
  · by_contra hvalid
    have hq : specQueue products ≠ [] := fun e => hvalid ((specQueue_eq_nil_iff products).mp e)
    have hne : (specQueue products).isEmpty = false := by
      cases hs : specQueue products with
      | nil => exact absurd hs hq
      | cons b r => rfl
    unfold sendOrderMQTT at h
    simp only [buildQueue_eq, hne, Bool.not_false, Bool.not_true, Bool.false_eq_true,
      if_false] at h
    split at h
    · rcases List.mem_append.mp h with h1 | h1
      · have := session_not_rejected.1 _ _ h1
        simp [Output.isRejected] at this
      · simp at h1
    · have := session_not_rejected.1 _ _ h
      simp [Output.isRejected] at this

/-- C3 at the order `[{id:0,quantity:1},{id:33,quantity:2}]` on the initial
state: no id is in 1..32 and the call only rejects. -/
theorem sendOrderMQTT_rejects_iff_no_valid_item_witness :
    (∀ p ∈ ([⟨0, 1⟩, ⟨33, 2⟩] : List Product), ¬ (1 ≤ p.id ∧ p.id ≤ 32)) ∧
    sendOrderMQTT 7 [⟨0, 1⟩, ⟨33, 2⟩] State.init =
      { st := { State.init with orderQueue := [] },
        out := [Output.rejected 7 OrderError.noValidItems], threw := none } :=
  ⟨by decide,
   (sendOrderMQTT_rejects_iff_no_valid_item 7 [⟨0, 1⟩, ⟨33, 2⟩] State.init).2 (by decide)⟩

/-! ## Shelf health -/

theorem sweep_eq (now : Int) (h : Health) :
    Health.sweep now h =
      { shelfStatus :=
          { s1 := !decide (now - h.lastHeartbeat.s1 > 30000) && h.shelfStatus.s1,
            s2 := !decide (now - h.lastHeartbeat.s2 > 30000) && h.shelfStatus.s2,
            s3 := !decide (now - h.lastHeartbeat.s3 > 30000) && h.shelfStatus.s3,
            s4 := !decide (now - h.lastHeartbeat.s4 > 30000) && h.shelfStatus.s4,
            s5 := !decide (now - h.lastHeartbeat.s5 > 30000) && h.shelfStatus.s5 },
        lastHeartbeat := h.lastHeartbeat } := by
  obtain ⟨⟨a1, a2, a3, a4, a5⟩, ⟨t1, t2, t3, t4, t5⟩⟩ := h
  by_cases c1 : now - t1 > 30000 <;> by_cases c2 : now - t2 > 30000 <;>
    by_cases c3 : now - t3 > 30000 <;> by_cases c4 : now - t4 > 30000 <;>
    by_cases c5 : now - t5 > 30000 <;>
    simp [Health.sweep, Health.sweepShelf, PerShelf.get?, PerShelf.set, c1, c2, c3, c4, c5]

theorem sweep_online (now : Int) (h : Health) (k : Int) :
    (Health.sweep now h).online k =
      match h.lastHeartbeat.get? k with
      | some t => !decide (now - t > 30000) && h.online k
      | none => false := by
  rw [sweep_eq]
  unfold Health.online PerShelf.get?
  by_cases h1 : k = 1
  · subst h1; simp
  · by_cases h2 : k = 2
    · subst h2; simp
    · by_cases h3 : k = 3
      · subst h3; simp
      · by_cases h4 : k = 4
        · subst h4; simp
        · by_cases h5 : k = 5
          · subst h5; simp
          · simp [h1, h2, h3, h4, h5]

/-- C10: for every health state and every `now`, the periodic sweep leaves a
shelf online exactly when it was online before and `now` minus its last
heartbeat is at most 30000 ms; the heartbeat timestamps are unchanged; a
shelf that is offline stays offline (so a shelf never seen stays offline and
the sweep turns no shelf online); sweeping twice with the same `now` is the
same as sweeping once. -/
theorem sweep_keeps_fresh_online_idempotent (h : Health) (now : Int) :
    (∀ k : Int, (Health.sweep now h).online k = true ↔
        (h.online k = true ∧ ∃ t, h.lastHeartbeat.get? k = some t ∧ now - t ≤ 30000)) ∧
    (Health.sweep now h).lastHeartbeat = h.lastHeartbeat ∧
    (∀ k : Int, h.online k = false → (Health.sweep now h).online k = false) ∧
    Health.sweep now (Health.sweep now h) = Health.sweep now h := by
  refine ⟨?_, ?_, ?_, ?_⟩
  · intro k
    rw [sweep_online]
    cases hg : h.lastHeartbeat.get? k with
    | none => simp
    | some t =>
      simp only [Bool.and_eq_true, Bool.not_eq_true', decide_eq_false_iff_not, not_lt,
        Option.some.injEq, exists_eq_left', gt_iff_lt]
      tauto
  · rw [sweep_eq]
  · intro k hk
    rw [sweep_online, hk]
    cases h.lastHeartbeat.get? k
    · rfl
    · simp
  · rw [sweep_eq now (Health.sweep now h)]
    rw [sweep_eq now h]
    simp

/-- C10 at the health state with shelf 1 last heard at 5000 and shelf 2 at
20000, both online, swept at 40000: shelf 2 stays online, shelf 1 goes
offline, and a second sweep changes nothing. -/
theorem sweep_keeps_fresh_online_idempotent_witness :
    (Health.sweep 40000 ⟨⟨true, true, false, false, false⟩, ⟨5000, 20000, 0, 0, 0⟩⟩).online 2
      = true ∧
    ¬ ((Health.sweep 40000 ⟨⟨true, true, false, false, false⟩, ⟨5000, 20000, 0, 0, 0⟩⟩).online 1
      = true) ∧
    Health.sweep 40000
        (Health.sweep 40000 ⟨⟨true, true, false, false, false⟩, ⟨5000, 20000, 0, 0, 0⟩⟩) =
      Health.sweep 40000 ⟨⟨true, true, false, false, false⟩, ⟨5000, 20000, 0, 0, 0⟩⟩ :=
  ⟨((sweep_keeps_fresh_online_idempotent
        ⟨⟨true, true, false, false, false⟩, ⟨5000, 20000, 0, 0, 0⟩⟩ 40000).1 2).mpr
      ⟨by decide, 20000, by decide, by decide⟩,
   fun h => by
     obtain ⟨_, t, ht, hle⟩ := ((sweep_keeps_fresh_online_idempotent
        ⟨⟨true, true, false, false, false⟩, ⟨5000, 20000, 0, 0, 0⟩⟩ 40000).1 1).mp h
     have ht5 : t = 5000 := by
       have h5 : (⟨5000, 20000, 0, 0, 0⟩ : PerShelf Int).get? 1 = some 5000 := by decide
       exact (Option.some.inj (ht.symm.trans h5))
     omega,
   (sweep_keeps_fresh_online_idempotent
      ⟨⟨true, true, false, false, false⟩, ⟨5000, 20000, 0, 0, 0⟩⟩ 40000).2.2.2⟩

/-! ## Single steps of the session -/

theorem response_topic_not_heartbit (topic : String)
    (h : jsStartsWith topic "vending/response/" = true) :
    jsStartsWith topic "vending/heartbit/" = false := by
  unfold jsStartsWith at h ⊢
  obtain ⟨t, ht⟩ := List.isPrefixOf_iff_prefix.mp h
  rw [← ht]
  simp [List.isPrefixOf]

/-- C6: while an item is awaited (`currentItems` is not empty), a message on
a response topic whose shelf number is not `currentShelf` leaves the whole
state as it is (`currentShelf`, `currentItems`, `orderQueue`, the armed
timers, the completion handle and everything else), sends no status event
and publishes no command. -/
theorem onMessage_response_other_shelf_ignored (s : State) (now : Int)
    (topic message : String)
    (htopic : jsStartsWith topic "vending/response/" = true)
    (hawait : s.currentItems ≠ [])
    (hother : jsStrictEq (jsParseInt (jsSplitLast '/' topic)) s.currentShelf = false) :
    onMessage now topic message s = { st := s, out := [], threw := none } := by
  unfold onMessage
  have hlen : s.currentItems.length > 0 := List.length_pos.mpr hawait
  simp [response_topic_not_heartbit topic htopic, htopic, hother, hlen]

/-- Reaching an item whose shelf is offline: the item is announced as
`Disconnected`, removed, and the call goes on with the remaining items. -/
theorem processNextItem_offline (s : State) (item : String) (rest : List String)
    (hitems : s.currentItems = item :: rest)
    (hoffline : s.shelfOnline = false)
    (hsend : ∀ c ∈ s.wsClients, c.sendThrows = false) :
    processNextItem s =
      { st := (processNextItem { s with currentItems := rest }).st,
        out := emitAll s.wsClients (.orderStatus (itemId item) .Disconnected) ++
                 (processNextItem { s with currentItems := rest }).out,
        threw := (processNextItem { s with currentItems := rest }).threw } := by
  rw [processNextItem_cons s item rest hitems]
  simp [hoffline, wsForEachSend_quiet _ _ hsend]

/-- Reaching an item whose shelf is offline while a client's `send` raises:
the clients before it are told `Disconnected`, and the exception leaves the
call with the state as it was. -/
theorem processNextItem_offline_raising (s : State) (item : String) (rest : List String)
    (pre : List WsClient) (c : WsClient) (post : List WsClient)
    (hitems : s.currentItems = item :: rest)
    (hoffline : s.shelfOnline = false)
    (hclients : s.wsClients = pre ++ c :: post)
    (hpre : ∀ d ∈ pre, d.sendThrows = false)
    (hc : c.sendThrows = true) :
    processNextItem s =
      { st := s, out := emitAll pre (.orderStatus (itemId item) .Disconnected),
        threw := some c.ident } := by
  rw [processNextItem_cons s item rest hitems, hclients]
  simp [hoffline, wsForEachSend_stops _ pre c post hpre hc]

/-- C7, amended: when `processNextItem` reaches an item whose shelf is
offline, no command is published and no timer is armed for it, and the only
sends are `Disconnected` status events for the item, to the clients in
registration order up to the first one whose `send` raises.  If no `send`
raises, every client receives the event once and the call goes on as
`processNextItem` on the state with the item removed and nothing else
changed.  If a `send` raises, the exception leaves the call with the state as
it was, the item still at the head of `currentItems`.  For an encoded product
the event carries the product id. -/
theorem processNextItem_offline_disconnected (s : State) (item : String)
    (rest : List String)
    (hitems : s.currentItems = item :: rest)
    (hoffline : s.shelfOnline = false) :
    ((∀ c ∈ s.wsClients, c.sendThrows = false) →
      processNextItem s =
        { st := (processNextItem { s with currentItems := rest }).st,
          out := emitAll s.wsClients (.orderStatus (itemId item) .Disconnected) ++
                   (processNextItem { s with currentItems := rest }).out,
          threw := (processNextItem { s with currentItems := rest }).threw }) ∧
    (∀ (pre : List WsClient) (c : WsClient) (post : List WsClient),
      s.wsClients = pre ++ c :: post → (∀ d ∈ pre, d.sendThrows = false) →
      c.sendThrows = true →
      processNextItem s =
        { st := s, out := emitAll pre (.orderStatus (itemId item) .Disconnected),
          threw := some c.ident }) ∧
    (∀ p : Product, item = encodeItem p → itemId item = some p.id) := by
  exact ⟨processNextItem_offline s item rest hitems hoffline,
    fun pre c post hcl hpre hc =>
      processNextItem_offline_raising s item rest pre c post hitems hoffline hcl hpre hc,
    fun p hp => by rw [hp, itemId_encodeItem]⟩

/-- C7, counterexample: at the item `30,2` of the offline shelf 5 with three
clients of which the second raises on `send`, the first client is told
`Disconnected`, the exception leaves `processNextItem`, and the state is
unchanged: the item is still at the head of `currentItems` and the batch
of shelf 1 is still queued, so the session has not moved on. -/
theorem processNextItem_offline_raising_send_stalls :
    processNextItem reachingShelf5Throwing =
      { st := reachingShelf5Throwing,
        out := [Output.wsSend 0 (.orderStatus (some 30) .Disconnected)],
        threw := some 1 } ∧
    (processNextItem reachingShelf5Throwing).st.currentItems = ["30,2"] ∧
    (processNextItem reachingShelf5Throwing).st.orderQueue =
      [{ shelf := 1, items := ["1,1"] }] := by
  have h := processNextItem_offline_raising reachingShelf5Throwing "30,2" []
    [{ ident := 0, sendThrows := false }] { ident := 1, sendThrows := true }
    [{ ident := 2, sendThrows := false }] (by decide) (by decide) (by decide) (by decide)
    (by decide)
  rw [h]
  decide

/-- C6 at a state awaiting shelf 1 and a `"success"` response on the topic
of shelf 2. -/
theorem onMessage_response_other_shelf_ignored_witness :
    (jsStartsWith "vending/response/2" "vending/response/" = true ∧
      awaitingShelf1.currentItems ≠ [] ∧
      jsStrictEq (jsParseInt (jsSplitLast '/' "vending/response/2"))
        awaitingShelf1.currentShelf = false) ∧
    onMessage 2000 "vending/response/2" "success" awaitingShelf1 =
      { st := awaitingShelf1, out := [], threw := none } :=
  ⟨⟨by decide, by decide, by decide⟩,
   onMessage_response_other_shelf_ignored awaitingShelf1 2000 "vending/response/2" "success"
     (by decide) (by decide) (by decide)⟩

/-- C7 amended, at a state reaching the item `30,2` on the offline shelf 5
with one client whose `send` returns. -/
theorem processNextItem_offline_disconnected_witness :
    (reachingShelf5.currentItems = ["30,2"] ∧ reachingShelf5.shelfOnline = false ∧
      ∀ c ∈ reachingShelf5.wsClients, c.sendThrows = false) ∧
    processNextItem reachingShelf5 =
      { st := (processNextItem { reachingShelf5 with currentItems := [] }).st,
        out := emitAll reachingShelf5.wsClients (.orderStatus (itemId "30,2") .Disconnected) ++
                 (processNextItem { reachingShelf5 with currentItems := [] }).out,
        threw := (processNextItem { reachingShelf5 with currentItems := [] }).threw } :=
  ⟨⟨by decide, by decide, by decide⟩,
   (processNextItem_offline_disconnected reachingShelf5 "30,2" [] (by decide)
     (by decide)).1 (by decide)⟩

/-- Reaching an item whose shelf is online: the command is published, the
item is announced as `Dispensing` and the timer is armed. -/
theorem processNextItem_online (s : State) (item : String) (rest : List String)
    (hitems : s.currentItems = item :: rest)
    (honline : s.shelfOnline = true)
    (hsend : ∀ c ∈ s.wsClients, c.sendThrows = false) :
    processNextItem s =
      { st := s.setTimeout (jsSplitFirst ',' item),
        out := Output.mqttPublish ("vending/shelf/" ++ jsShelfStr s.currentShelf) item ::
                 emitAll s.wsClients (.orderStatus (itemId item) .Dispensing),
        threw := none } := by
  rw [processNextItem_cons s item rest hitems]
  simp [honline, wsForEachSend_quiet _ _ hsend]

/-- The armed timer fires: the item is announced as `Failed`, removed, and
the session goes on. -/
theorem onTimeout_armed (s : State) (t : Timer)
    (htimers : s.timers = [t])
    (hsend : ∀ c ∈ s.wsClients, c.sendThrows = false) :
    onTimeout t.handle s =
      { st := (processNextItem
                { s with timers := [], currentItems := s.currentItems.tail }).st,
        out := emitAll s.wsClients (.orderStatus (jsParseInt t.id) .Failed) ++
                 (processNextItem
                   { s with timers := [], currentItems := s.currentItems.tail }).out,
        threw := (processNextItem
                   { s with timers := [], currentItems := s.currentItems.tail }).threw } := by
  unfold onTimeout
  simp [htimers, wsForEachSend_quiet _ _ hsend]

/-- Reaching an item whose shelf is online while a client's `send` raises:
the command is published, the clients before the raising one are told
`Dispensing`, and the exception leaves the call with no timer armed. -/
theorem processNextItem_online_raising (s : State) (item : String) (rest : List String)
    (pre : List WsClient) (c : WsClient) (post : List WsClient)
    (hitems : s.currentItems = item :: rest)
    (honline : s.shelfOnline = true)
    (hclients : s.wsClients = pre ++ c :: post)
    (hpre : ∀ d ∈ pre, d.sendThrows = false)
    (hc : c.sendThrows = true) :
    processNextItem s =
      { st := s,
        out := Output.mqttPublish ("vending/shelf/" ++ jsShelfStr s.currentShelf) item ::
                 emitAll pre (.orderStatus (itemId item) .Dispensing),
        threw := some c.ident } := by
  rw [processNextItem_cons s item rest hitems, hclients]
  simp [honline, wsForEachSend_stops _ pre c post hpre hc]

/-- The armed timer fires while a client's `send` raises: the clients before
it are told `Failed`, and the exception leaves the callback with the item
still at the head of `currentItems`. -/
theorem onTimeout_armed_raising (s : State) (t : Timer)
    (pre : List WsClient) (c : WsClient) (post : List WsClient)
    (htimers : s.timers = [t])
    (hclients : s.wsClients = pre ++ c :: post)
    (hpre : ∀ d ∈ pre, d.sendThrows = false)
    (hc : c.sendThrows = true) :
    onTimeout t.handle s =
      { st := { s with timers := [] },
        out := emitAll pre (.orderStatus (jsParseInt t.id) .Failed),
        threw := some c.ident } := by
  unfold onTimeout
  simp [htimers, hclients, wsForEachSend_stops _ pre c post hpre hc]

/-- C8, amended: when `processNextItem` reaches an item whose shelf is online
(no other timer pending) and no client's `send` raises, it publishes the
command and arms one timer of 15000 ms.  When that timer fires with the item
still at the head of `currentItems` (no response from the shelf was
accepted), the timer is gone, nothing is published, and the only sends are
`Failed` status events for the item, to the clients in registration order up
to the first one whose `send` raises.  If no `send` raises, every client
receives the event once, the item is removed, and the call goes on as
`processNextItem` on the remaining items, so nothing is published again for
the item.  If a `send` raises, the exception leaves the callback with the
item still at the head of `currentItems`. -/
theorem onTimeout_failed_once_no_retry (s : State) (item : String) (rest : List String)
    (hitems : s.currentItems = item :: rest)
    (honline : s.shelfOnline = true)
    (hidle : s.timers = []) :
    ((∀ c ∈ s.wsClients, c.sendThrows = false) →
      (processNextItem s).st.timers =
        [{ handle := s.nextTimer, delay := 15000, id := jsSplitFirst ',' item }] ∧
      (processNextItem s).st.currentItems = item :: rest ∧
      (processNextItem s).out =
        Output.mqttPublish ("vending/shelf/" ++ jsShelfStr s.currentShelf) item ::
          emitAll s.wsClients (.orderStatus (itemId item) .Dispensing)) ∧
    (∀ w : State, w.currentItems = item :: rest →
      w.timers = [{ handle := s.nextTimer, delay := 15000, id := jsSplitFirst ',' item }] →
      (∀ c ∈ w.wsClients, c.sendThrows = false) →
      onTimeout s.nextTimer w =
        { st := (processNextItem { w with timers := [], currentItems := rest }).st,
          out := emitAll w.wsClients (.orderStatus (itemId item) .Failed) ++
                   (processNextItem { w with timers := [], currentItems := rest }).out,
          threw := (processNextItem { w with timers := [], currentItems := rest }).threw }) ∧
    (∀ (w : State) (pre : List WsClient) (c : WsClient) (post : List WsClient),
      w.timers = [{ handle := s.nextTimer, delay := 15000, id := jsSplitFirst ',' item }] →
      w.wsClients = pre ++ c :: post → (∀ d ∈ pre, d.sendThrows = false) →
      c.sendThrows = true →
      onTimeout s.nextTimer w =
        { st := { w with timers := [] },
          out := emitAll pre (.orderStatus (itemId item) .Failed),
          threw := some c.ident }) := by
  refine ⟨?_, ?_, ?_⟩
  · intro hsend
    rw [processNextItem_online s item rest hitems honline hsend]
    refine ⟨?_, ?_, rfl⟩
    · simp [State.setTimeout, hidle]
    · simp [State.setTimeout, hitems]
  · intro w hw ht hq
    have := onTimeout_armed w _ ht hq
    simp only [hw, List.tail_cons] at this
    exact this
  · intro w pre c post ht hcl hpre hc
    exact onTimeout_armed_raising w _ pre c post ht hcl hpre hc

/-- C8, counterexample: when the timer of the awaited item `1,1` fires with
three clients of which the second raises on `send`, the first client is told
`Failed`, the exception leaves the callback, and the item is still at the
head of `currentItems` with `2,1` behind it and no timer armed: the item is
not removed and the session has not moved on. -/
theorem onTimeout_raising_send_stalls :
    onTimeout 0 awaitingShelf1Throwing =
      { st := { awaitingShelf1Throwing with timers := [] },
        out := [Output.wsSend 0 (.orderStatus (some 1) .Failed)],
        threw := some 1 } ∧
    (onTimeout 0 awaitingShelf1Throwing).st.currentItems = ["1,1", "2,1"] ∧
    (onTimeout 0 awaitingShelf1Throwing).st.timers = [] := by
  decide

/-- C8 amended, at a state reaching the item `1,1` on the online shelf 1, the
timer firing in the awaiting state, with one client whose `send` returns. -/
theorem onTimeout_failed_once_no_retry_witness :
    (reachingShelf1.currentItems = ["1,1"] ∧ reachingShelf1.shelfOnline = true ∧
      reachingShelf1.timers = [] ∧ ∀ c ∈ reachingShelf1.wsClients, c.sendThrows = false) ∧
    (processNextItem reachingShelf1).st.timers =
      [{ handle := 0, delay := 15000, id := jsSplitFirst ',' "1,1" }] ∧
    onTimeout 0 awaitingShelf1 =
      { st := (processNextItem { awaitingShelf1 with timers := [], currentItems := [] }).st,
        out := emitAll awaitingShelf1.wsClients (.orderStatus (itemId "1,1") .Failed) ++
                 (processNextItem { awaitingShelf1 with timers := [], currentItems := [] }).out,
        threw := (processNextItem
                   { awaitingShelf1 with timers := [], currentItems := [] }).threw } :=
  ⟨⟨by decide, by decide, by decide, by decide⟩,
   ((onTimeout_failed_once_no_retry reachingShelf1 "1,1" [] (by decide) (by decide)
     (by decide)).1 (by decide)).1,
   (onTimeout_failed_once_no_retry reachingShelf1 "1,1" [] (by decide) (by decide)
     (by decide)).2.1 awaitingShelf1 (by decide) (by decide) (by decide)⟩

/-! ## Delivery failures -/

/-- The accepted response of the awaited shelf: the timer is cancelled, the
outcome is announced, the item is removed, and the session goes on. -/
theorem onMessage_response_match (s : State) (now : Int) (topic message : String)
    (item : String) (rest : List String)
    (htopic : jsStartsWith topic "vending/response/" = true)
    (hitems : s.currentItems = item :: rest)
    (hmatch : jsStrictEq (jsParseInt (jsSplitLast '/' topic)) s.currentShelf = true)
    (hsend : ∀ c ∈ s.wsClients, c.sendThrows = false) :
    onMessage now topic message s =
      { st := (processNextItem { s.clearTimeout with currentItems := rest }).st,
        out := emitAll s.wsClients
                 (.orderStatus (itemId item)
                   (if message = "success" then ItemStatus.Dispensed else ItemStatus.Failed)) ++
               (processNextItem { s.clearTimeout with currentItems := rest }).out,
        threw := none } := by
  have hcl : s.clearTimeout.currentItems = s.currentItems := by
    unfold State.clearTimeout; split <;> rfl
  have hcw : s.clearTimeout.wsClients = s.wsClients := by
    unfold State.clearTimeout; split <;> rfl
  unfold onMessage
  simp [response_topic_not_heartbit topic htopic, htopic, hmatch, hitems, hcl, hcw,
    wsForEachSend_quiet _ _ hsend, itemId]

/-- C9, counterexample: with three clients of which the second raises on
`send`, the third client does not receive the event and the exception leaves
the loop; in the response handler the item then stays at the head of
`currentItems` with its timer cancelled, so the session does not advance. -/
theorem wsForEachSend_failure_not_isolated :
    Output.wsSend 2 (.orderStatus (some 1) .Dispensed) ∉
      (wsForEachSend (.orderStatus (some 1) .Dispensed) clientsSecondThrows).1 ∧
    (wsForEachSend (.orderStatus (some 1) .Dispensed) clientsSecondThrows).2 = some 1 ∧
    onMessage 2000 "vending/response/1" "success" awaitingShelf1Throwing =
      { st := { awaitingShelf1Throwing with timers := [] },
        out := [Output.wsSend 0 (.orderStatus (some 1) .Dispensed)], threw := none } ∧
    (onMessage 2000 "vending/response/1" "success" awaitingShelf1Throwing).st.currentItems =
      ["1,1", "2,1"] := by
  decide

/-- C9, amended: publishing a status event sends it to the clients in
registration order up to the first client whose `send` raises.  If no `send`
raises, every client receives the event, no exception leaves the loop, and
the response handler goes on to the next item.  If a `send` raises, exactly
the clients registered before it have received the event and the exception
leaves the loop. -/
theorem wsForEachSend_delivers_until_first_failure (ev : StatusEvent)
    (clients : List WsClient) :
    ((∀ c ∈ clients, c.sendThrows = false) →
        wsForEachSend ev clients = (emitAll clients ev, none)) ∧
    (∀ (pre : List WsClient) (c : WsClient) (post : List WsClient),
        clients = pre ++ c :: post → (∀ d ∈ pre, d.sendThrows = false) →
        c.sendThrows = true →
        wsForEachSend ev clients = (emitAll pre ev, some c.ident)) ∧
    (∀ (s : State) (now : Int) (topic message item : String) (rest : List String),
        s.wsClients = clients → (∀ c ∈ clients, c.sendThrows = false) →
        jsStartsWith topic "vending/response/" = true →
        s.currentItems = item :: rest →
        jsStrictEq (jsParseInt (jsSplitLast '/' topic)) s.currentShelf = true →
        onMessage now topic message s =
          { st := (processNextItem { s.clearTimeout with currentItems := rest }).st,
            out := emitAll clients
                     (.orderStatus (itemId item)
                       (if message = "success" then ItemStatus.Dispensed
                        else ItemStatus.Failed)) ++
                   (processNextItem { s.clearTimeout with currentItems := rest }).out,
            threw := none }) := by
  refine ⟨wsForEachSend_quiet ev clients, ?_, ?_⟩
  · intro pre c post hcl hpre hc
    rw [wsForEachSend_eq, hcl]
    have h1 : (pre ++ c :: post).takeWhile (fun d => !d.sendThrows) = pre :=
      takeWhile_append_stop _ pre c post (fun d hd => by simp [hpre d hd]) (by simp [hc])
    have h2 : (pre ++ c :: post).find? (fun d => d.sendThrows) = some c := by
      rw [List.find?_append]
      have : pre.find? (fun d => d.sendThrows) = none := by
        rw [List.find?_eq_none]
        intro d hd
        simp [hpre d hd]
      rw [this]
      simp [hc]
    rw [h1, h2]
    rfl
  · intro s now topic message item rest hs hq htopic hitems hmatch
    subst hs
    exact onMessage_response_match s now topic message item rest htopic hitems hmatch hq

/-- C9 amended, at the clients `clientsSecondThrows`: the first client
receives the event and the exception of the second leaves the loop. -/
theorem wsForEachSend_delivers_until_first_failure_witness :
    (clientsSecondThrows =
        [{ ident := 0, sendThrows := false }] ++
          { ident := 1, sendThrows := true } :: [{ ident := 2, sendThrows := false }] ∧
      (∀ d ∈ [({ ident := 0, sendThrows := false } : WsClient)], d.sendThrows = false) ∧
      ({ ident := 1, sendThrows := true } : WsClient).sendThrows = true) ∧
    wsForEachSend (.orderComplete true) clientsSecondThrows =
      (emitAll [{ ident := 0, sendThrows := false }] (.orderComplete true), some 1) :=
  ⟨⟨by decide, by decide, by decide⟩,
   (wsForEachSend_delivers_until_first_failure (.orderComplete true) clientsSecondThrows).2.1
     [{ ident := 0, sendThrows := false }] { ident := 1, sendThrows := true }
     [{ ident := 2, sendThrows := false }] (by decide) (by decide) (by decide)⟩

/-! ## Topics -/

theorem jsNumStr_no_slash (n : Int) : ∀ c ∈ (jsNumStr n).data, c ≠ '/' := by
  intro c hc e
  unfold jsNumStr at hc
  by_cases hn : n < 0
  · rw [if_pos hn] at hc
    rcases List.mem_cons.mp hc with h | h
    · rw [e] at h; revert h; decide
    · have := (toDigits_dec n.natAbs).2.1 c h
      rw [e] at this; unfold IsDecChar at this; revert this; decide
  · rw [if_neg hn] at hc
    have := (toDigits_dec n.toNat).2.1 c hc
    rw [e] at this; unfold IsDecChar at this; revert this; decide

theorem jsStartsWith_append (pre x : String) : jsStartsWith (pre ++ x) pre = true := by
  unfold jsStartsWith
  rw [String.data_append]
  exact List.isPrefixOf_iff_prefix.mpr (List.prefix_append _ _)

/-- The last segment of a topic that ends in a slash followed by a rendered
number is the rendered number. -/
theorem jsSplitLast_topic (body : List Char) (n : Int) :
    jsSplitLast '/' (String.mk (body ++ ['/']) ++ jsNumStr n) = jsNumStr n := by
  unfold jsSplitLast
  rw [String.data_append]
  simp only [List.reverse_append, List.reverse_cons, List.reverse_nil, List.nil_append,
    List.singleton_append, List.append_assoc]
  rw [takeWhile_append_stop _ (jsNumStr n).data.reverse '/' body.reverse]
  · rw [List.reverse_reverse]
  · intro x hx
    simpa using jsNumStr_no_slash n x (List.mem_reverse.mp hx)
  · simp

theorem jsParseInt_heartbit_topic (n : Int) :
    jsParseInt (jsSplitLast '/' ("vending/heartbit/" ++ jsNumStr n)) = some n := by
  have : ("vending/heartbit/" : String) = String.mk ("vending/heartbit".data ++ ['/']) := by
    decide
  rw [this, jsSplitLast_topic, jsParseInt_jsNumStr]

theorem jsParseInt_response_topic (n : Int) :
    jsParseInt (jsSplitLast '/' ("vending/response/" ++ jsNumStr n)) = some n := by
  have : ("vending/response/" : String) = String.mk ("vending/response".data ++ ['/']) := by
    decide
  rw [this, jsSplitLast_topic, jsParseInt_jsNumStr]

/-! ## Ambient events -/

theorem Ambient.run_eq (a : Ambient) (s : State) :
    a.run s = { st := { s with health := a.apply s.health }, out := [], threw := none } := by
  cases a with
  | heartbeat shelf now payload =>
    unfold Ambient.run Ambient.apply onMessage
    simp [jsStartsWith_append, jsParseInt_heartbit_topic]
  | sweep now => rfl
  | close => rfl

theorem foldl_ambient_run (as : List Ambient) : ∀ s : State,
    as.foldl (fun (r : Res) (a : Ambient) => r.andThen a.run)
        { st := s, out := [], threw := none } =
      { st := { s with health := as.foldl (fun h a => a.apply h) s.health },
        out := [], threw := none } := by
  induction as with
  | nil => intro s; rfl
  | cons a rest ih =>
    intro s
    rw [List.foldl_cons, List.foldl_cons]
    have : Res.andThen { st := s, out := [], threw := none } a.run =
        { st := { s with health := a.apply s.health }, out := [], threw := none } := by
      simp [Res.andThen, Ambient.run_eq]
    rw [this, ih]

/-- A wait changes the health tables by its ambient events and then runs
the trigger. -/
theorem playSegment_eq (seg : List Ambient × Trigger) (s : State) :
    playSegment seg s =
      seg.2.run { s with health := seg.1.foldl (fun h a => a.apply h) s.health } := by
  unfold playSegment
  rw [foldl_ambient_run]
  simp [Res.andThen]

/-! ## Sequencing -/

theorem Res.andThen_prepend (pre : List Output) (r : Res) (f : State → Res) :
    Res.andThen { st := r.st, out := pre ++ r.out, threw := r.threw } f =
      { st := (r.andThen f).st, out := pre ++ (r.andThen f).out,
        threw := (r.andThen f).threw } := by
  unfold Res.andThen
  cases h : r.threw with
  | none => simp
  | some c => simp [h]

theorem Res.andThen_quiet (s : State) (out : List Output) (f : State → Res) :
    Res.andThen { st := s, out := out, threw := none } f =
      { st := (f s).st, out := out ++ (f s).out, threw := (f s).threw } := by
  simp [Res.andThen]

/-! ## Runs of the session -/

/-- With no raising client neither session function throws. -/
theorem session_quiet :
    (∀ s, (∀ c ∈ s.wsClients, c.sendThrows = false) → (processNextShelf s).threw = none) ∧
    (∀ s, (∀ c ∈ s.wsClients, c.sendThrows = false) → (processNextItem s).threw = none) := by
  apply session_induction
  · intro s hq hs
    rw [processNextShelf_nil s hq, wsForEachSend_quiet _ _ hs]
    simp only []
    split <;> rfl
  · intro s batch rest hq ih hs
    rw [processNextShelf_cons s batch rest hq]
    exact ih hs
  · intro s hi ih hs
    rw [processNextItem_nil s hi]
    exact ih hs
  · intro s item rest hi ih hs
    rw [processNextItem_cons s item rest hi, wsForEachSend_quiet _ _ hs,
      wsForEachSend_quiet _ _ hs]
    split
    · exact ih hs
    · rfl

/-- Once the session is idle (no item at hand, no timer armed) waits have no
effect beyond the health tables. -/
theorem playFrom_idle (sc : List (List Ambient × Trigger)) : ∀ s : State,
    s.currentItems = [] → s.timers = [] →
    (playFrom sc s).out = [] ∧ (playFrom sc s).threw = none ∧
      (playFrom sc s).st.processing = s.processing := by
  induction sc with
  | nil => intro s _ _; exact ⟨rfl, rfl, rfl⟩
  | cons seg sc ih =>
    intro s hi ht
    have hseg : playSegment seg s =
        { st := { s with health := seg.1.foldl (fun h a => a.apply h) s.health },
          out := [], threw := none } := by
      rw [playSegment_eq]
      cases seg.2 with
      | response now payload =>
        unfold Trigger.run onMessage
        have h1 := jsStartsWith_append "vending/response/" (jsShelfStr s.currentShelf)
        simp [response_topic_not_heartbit _ h1, hi]
      | deadline =>
        unfold Trigger.run
        cases hto : s.timeoutId with
        | none => simp [hto]
        | some h => simp [hto, onTimeout, ht]
    unfold playFrom
    rw [hseg, Res.andThen_quiet]
    obtain ⟨h1, h2, h3⟩ := ih { s with health := seg.1.foldl (fun h a => a.apply h) s.health }
      hi ht
    exact ⟨by rw [h1]; rfl, h2, h3⟩

/-- The end of the wait for an item: whatever the trigger, the outcome is
announced once, the timer is gone, the item is removed and the session goes
on. -/
theorem trigger_run_awaiting (w : State) (trig : Trigger) (k : Int) (p : Product)
    (rest : List String) (h : Nat)
    (hk : w.currentShelf = some k)
    (hi : w.currentItems = encodeItem p :: rest)
    (ht : w.timers = [{ handle := h, delay := 15000, id := jsSplitFirst ',' (encodeItem p) }])
    (hto : w.timeoutId = some h)
    (hs : ∀ c ∈ w.wsClients, c.sendThrows = false) :
    trig.run w =
      { st := (processNextItem { w with currentItems := rest, timers := [] }).st,
        out := emitAll w.wsClients (.orderStatus (some p.id) trig.status) ++
                 (processNextItem { w with currentItems := rest, timers := [] }).out,
        threw := (processNextItem { w with currentItems := rest, timers := [] }).threw } := by
  have hq : (processNextItem { w with currentItems := rest, timers := [] }).threw = none :=
    session_quiet.2 _ hs
  cases trig with
  | response now payload =>
    have hclear : ({ w.clearTimeout with currentItems := rest } : State) =
        { w with currentItems := rest, timers := [] } := by
      simp [State.clearTimeout, hto, ht]
    show onMessage now ("vending/response/" ++ jsShelfStr w.currentShelf) payload w = _
    rw [onMessage_response_match w now _ payload (encodeItem p) rest
      (jsStartsWith_append _ _) hi
      (by simp [hk, jsShelfStr, jsParseInt_response_topic, jsStrictEq]) hs]
    rw [hclear, hq, itemId_encodeItem]
    rfl
  | deadline =>
    have hrun : Trigger.deadline.run w = onTimeout h w := by
      simp [Trigger.run, hto]
    have := onTimeout_armed w _ ht hs
    simp only [hi, List.tail_cons] at this
    rw [hrun, this, jsSplitFirst_encodeItem, jsParseInt_jsNumStr]
    rfl

/-- One wait for an item whose shelf is online when it is reached: the
command and `Dispensing`, then, whatever ends the wait, the outcome, and the
session goes on with the remaining items, no timer armed, under the health
tables as the ambient events of the wait left them. -/
theorem await_step (s : State) (k : Int) (p : Product) (rest : List String)
    (seg : List Ambient × Trigger) (sc : List (List Ambient × Trigger))
    (hk : s.currentShelf = some k)
    (hi : s.currentItems = encodeItem p :: rest)
    (ht : s.timers = [])
    (hs : ∀ c ∈ s.wsClients, c.sendThrows = false)
    (hon : s.health.online k = true) :
    (processNextItem s).andThen (playFrom (seg :: sc)) =
      { st := ((processNextItem
                  { s with health := seg.1.foldl (fun h a => a.apply h) s.health,
                           currentItems := rest, timers := [],
                           timeoutId := some s.nextTimer,
                           nextTimer := s.nextTimer + 1 }).andThen (playFrom sc)).st,
        out := Output.mqttPublish ("vending/shelf/" ++ jsNumStr k) (encodeItem p) ::
                 (emitAll s.wsClients (.orderStatus (some p.id) .Dispensing) ++
                   (emitAll s.wsClients (.orderStatus (some p.id) seg.2.status) ++
                     ((processNextItem
                        { s with health := seg.1.foldl (fun h a => a.apply h) s.health,
                                 currentItems := rest, timers := [],
                                 timeoutId := some s.nextTimer,
                                 nextTimer := s.nextTimer + 1 }).andThen (playFrom sc)).out)),
        threw := ((processNextItem
                  { s with health := seg.1.foldl (fun h a => a.apply h) s.health,
                           currentItems := rest, timers := [],
                           timeoutId := some s.nextTimer,
                           nextTimer := s.nextTimer + 1 }).andThen (playFrom sc)).threw } := by
  have honline : s.shelfOnline = true := by
    unfold State.shelfOnline
    rw [hk]
    exact hon
  rw [processNextItem_online s _ rest hi honline hs, Res.andThen_quiet]
  unfold playFrom
  rw [playSegment_eq, trigger_run_awaiting _ seg.2 k p rest s.nextTimer, Res.andThen_prepend]
  · have hstr : jsShelfStr s.currentShelf = jsNumStr k := by rw [hk]; rfl
    rw [hstr, itemId_encodeItem]
    rfl
  · exact hk
  · simp [State.setTimeout, hi]
  · simp [State.setTimeout, ht]
  · rfl
  · simpa [State.setTimeout] using hs

/-- An item whose shelf is offline when it is reached: `Disconnected`, and
the session goes on within the same turn. -/
theorem skip_step (s : State) (k : Int) (p : Product) (rest : List String)
    (f : State → Res)
    (hk : s.currentShelf = some k)
    (hi : s.currentItems = encodeItem p :: rest)
    (hs : ∀ c ∈ s.wsClients, c.sendThrows = false)
    (hoff : s.health.online k = false) :
    (processNextItem s).andThen f =
      { st := ((processNextItem { s with currentItems := rest }).andThen f).st,
        out := emitAll s.wsClients (.orderStatus (some p.id) .Disconnected) ++
                 ((processNextItem { s with currentItems := rest }).andThen f).out,
        threw := ((processNextItem { s with currentItems := rest }).andThen f).threw } := by
  have hoffline : s.shelfOnline = false := by
    unfold State.shelfOnline
    rw [hk]
    exact hoff
  rw [processNextItem_offline s _ rest hi hoffline hs, Res.andThen_prepend,
    itemId_encodeItem]

/-- The run from `processNextItem`, given the run from `processNextShelf`
for the batches queued behind. -/
theorem items_run (req : Nat) (later : List (Int × List Product))
    (hshelf : ∀ (s : State) (sc : List (List Ambient × Trigger)),
      s.orderQueue = later.map encodeBatch → s.currentItems = [] → s.timers = [] →
      (∀ c ∈ s.wsClients, c.sendThrows = false) → s.currentResolve = some req →
      s.processing = true →
      RunsAs req s.wsClients s.health (visitGroups later) sc
        ((processNextShelf s).andThen (playFrom sc))) :
    ∀ (cur : List Product) (k : Int) (s : State) (sc : List (List Ambient × Trigger)),
      s.currentShelf = some k → s.currentItems = cur.map encodeItem →
      s.orderQueue = later.map encodeBatch → s.timers = [] →
      (∀ c ∈ s.wsClients, c.sendThrows = false) → s.currentResolve = some req →
      s.processing = true →
      RunsAs req s.wsClients s.health (cur.map (fun p => (k, p)) ++ visitGroups later) sc
        ((processNextItem s).andThen (playFrom sc)) := by
  intro cur
  induction cur with
  | nil =>
    intro k s sc _ hi hq ht hs hr hp
    rw [processNextItem_nil s hi]
    exact hshelf s sc hq hi ht hs hr hp
  | cons p rest ih =>
    intro k s sc hk hi hq ht hs hr hp
    rw [List.map_cons] at hi
    by_cases hon : s.health.online k = true
    · cases sc with
      | nil =>
        have honline : s.shelfOnline = true := by
          unfold State.shelfOnline
          rw [hk]
          exact hon
        rw [processNextItem_online s _ _ hi honline hs, Res.andThen_quiet]
        have hstr : jsShelfStr s.currentShelf = jsNumStr k := by rw [hk]; rfl
        refine ⟨?_, rfl, ?_⟩
        · simp [specTrace, hon, playFrom, hstr, itemId_encodeItem]
        · simp [specDrained, hon, playFrom, State.setTimeout, hp]
      | cons seg sc =>
        rw [await_step s k p _ seg sc hk hi ht hs hon]
        obtain ⟨h1, h2, h3⟩ := ih k
          { s with health := seg.1.foldl (fun h a => a.apply h) s.health,
                   currentItems := rest.map encodeItem, timers := [],
                   timeoutId := some s.nextTimer, nextTimer := s.nextTimer + 1 }
          sc hk rfl hq rfl hs hr hp
        refine ⟨?_, h2, ?_⟩
        · simp only [h1]
          simp [specTrace, hon]
        · simp only [h3]
          simp [specDrained, hon]
    · have hoff : s.health.online k = false := by simpa using hon
      rw [skip_step s k p _ (playFrom sc) hk hi hs hoff]
      obtain ⟨h1, h2, h3⟩ := ih k { s with currentItems := rest.map encodeItem } sc hk rfl hq ht
        hs hr hp
      refine ⟨?_, h2, ?_⟩
      · simp only [h1]
        simp [specTrace, hoff]
      · simp only [h3]
        simp [specDrained, hoff]

/-- The run from `processNextShelf` and from `processNextItem`, whatever
batches are queued. -/
theorem session_run (req : Nat) (later : List (Int × List Product)) :
    (∀ (s : State) (sc : List (List Ambient × Trigger)),
      s.orderQueue = later.map encodeBatch → s.currentItems = [] → s.timers = [] →
      (∀ c ∈ s.wsClients, c.sendThrows = false) → s.currentResolve = some req →
      s.processing = true →
      RunsAs req s.wsClients s.health (visitGroups later) sc
        ((processNextShelf s).andThen (playFrom sc))) ∧
    (∀ (cur : List Product) (k : Int) (s : State) (sc : List (List Ambient × Trigger)),
      s.currentShelf = some k → s.currentItems = cur.map encodeItem →
      s.orderQueue = later.map encodeBatch → s.timers = [] →
      (∀ c ∈ s.wsClients, c.sendThrows = false) → s.currentResolve = some req →
      s.processing = true →
      RunsAs req s.wsClients s.health (cur.map (fun p => (k, p)) ++ visitGroups later) sc
        ((processNextItem s).andThen (playFrom sc))) := by
  induction later with
  | nil =>
    have hshelf : ∀ (s : State) (sc : List (List Ambient × Trigger)),
        s.orderQueue = ([] : List (Int × List Product)).map encodeBatch →
        s.currentItems = [] → s.timers = [] →
        (∀ c ∈ s.wsClients, c.sendThrows = false) → s.currentResolve = some req →
        s.processing = true →
        RunsAs req s.wsClients s.health (visitGroups []) sc
          ((processNextShelf s).andThen (playFrom sc)) := by
      intro s sc hq hi ht hs hr _
      rw [processNextShelf_nil s hq, wsForEachSend_quiet _ _ hs]
      simp only [hr]
      rw [Res.andThen_quiet]
      obtain ⟨h1, h2, h3⟩ := playFrom_idle sc
        { s with processing := false, currentResolve := none, currentReject := none } hi ht
      refine ⟨?_, h2, ?_⟩
      · simp only [h1]
        simp [visitGroups, specTrace]
      · simp only [h3]
        simp [visitGroups, specDrained]
    exact ⟨hshelf, items_run req [] hshelf⟩
  | cons g later ih =>
    have hshelf : ∀ (s : State) (sc : List (List Ambient × Trigger)),
        s.orderQueue = (g :: later).map encodeBatch →
        s.currentItems = [] → s.timers = [] →
        (∀ c ∈ s.wsClients, c.sendThrows = false) → s.currentResolve = some req →
        s.processing = true →
        RunsAs req s.wsClients s.health (visitGroups (g :: later)) sc
          ((processNextShelf s).andThen (playFrom sc)) := by
      intro s sc hq _ ht hs hr hp
      rw [List.map_cons] at hq
      rw [processNextShelf_cons s _ _ hq]
      have := ih.2 g.2 g.1
        { s with orderQueue := later.map encodeBatch, currentShelf := some (encodeBatch g).shelf,
                 currentItems := (encodeBatch g).items }
        sc rfl rfl rfl ht hs hr hp
      simpa [visitGroups] using this
    exact ⟨hshelf, items_run req (g :: later) hshelf⟩

/-! ## The run of an order -/

theorem flatMap_specBatch (ps : List Product) (ks : List Int) :
    ks.flatMap (specBatch ps) =
      ((ks.map (fun k => (k, specRouted ps k))).filter (fun g => !g.2.isEmpty)).map
        encodeBatch := by
  induction ks with
  | nil => rfl
  | cons k ks ih =>
    rw [List.flatMap_cons, ih, List.map_cons, List.filter_cons]
    unfold specBatch
    cases h : specRouted ps k with
    | nil => simp
    | cons p r => simp [encodeBatch]

theorem specQueue_eq_groups (ps : List Product) :
    specQueue ps = (specGroups ps).map encodeBatch := by
  unfold specGroups
  rw [← flatMap_specBatch]
  simp [specQueue, List.flatMap_cons]

theorem visitGroups_filter (ps : List Product) (ks : List Int) :
    visitGroups ((ks.map (fun k => (k, specRouted ps k))).filter (fun g => !g.2.isEmpty)) =
      ks.flatMap (fun k => (specRouted ps k).map (fun p => (k, p))) := by
  induction ks with
  | nil => rfl
  | cons k ks ih =>
    rw [List.flatMap_cons, ← ih, List.map_cons, List.filter_cons]
    cases h : specRouted ps k with
    | nil => simp
    | cons p r => simp [visitGroups, List.flatMap_cons]

theorem visitGroups_specGroups (ps : List Product) :
    visitGroups (specGroups ps) = specVisit ps :=
  visitGroups_filter ps [5, 4, 3, 2, 1]

/-- The run of an accepted order processed on its own, from any state with
no timer pending and no raising client, over any list of waits. -/
theorem order_run (s0 : State) (req : Nat) (products : List Product)
    (sc : List (List Ambient × Trigger))
    (hsend : ∀ c ∈ s0.wsClients, c.sendThrows = false)
    (hidle : s0.timers = [])
    (hvalid : ∃ p ∈ products, 1 ≤ p.id ∧ p.id ≤ 32) :
    RunsAs req s0.wsClients s0.health (specVisit products) sc
      ((sendOrderMQTT req products s0).andThen (playFrom sc)) := by
  have hq : specQueue products ≠ [] := by
    intro e
    obtain ⟨p, hp, hr⟩ := hvalid
    exact (specQueue_eq_nil_iff products).mp e p hp hr
  have hne : (specQueue products).isEmpty = false := by
    cases hs : specQueue products with
    | nil => exact absurd hs hq
    | cons b r => rfl
  have hthrew := session_quiet.1
    { s0 with orderQueue := specQueue products, currentResolve := some req,
              currentReject := some req, processing := true } hsend
  have hsend_eq : sendOrderMQTT req products s0 =
      processNextShelf
        { s0 with orderQueue := specQueue products, currentResolve := some req,
                  currentReject := some req, processing := true } := by
    unfold sendOrderMQTT
    simp only [buildQueue_eq, hne, Bool.not_false, Bool.not_true, Bool.false_eq_true,
      if_false]
    rw [hthrew]
  rw [hsend_eq, ← visitGroups_specGroups]
  cases hg : specGroups products with
  | nil =>
    rw [specQueue_eq_groups, hg] at hq
    exact absurd rfl hq
  | cons g later =>
    have hqueue : specQueue products = encodeBatch g :: later.map encodeBatch := by
      rw [specQueue_eq_groups, hg, List.map_cons]
    rw [processNextShelf_cons _ _ _ hqueue]
    have := (session_run req later).2 g.2 g.1
      { s0 with orderQueue := later.map encodeBatch, currentResolve := some req,
                currentReject := some req, processing := true,
                currentShelf := some (encodeBatch g).shelf,
                currentItems := (encodeBatch g).items }
      sc rfl rfl rfl hidle hsend rfl rfl
    simpa [visitGroups] using this

/-- C4, amended: provided no client's `send` raises, for every accepted order
processed on its own (from a state with no timer pending) and every list of
waits (ambient health events, then a response of the served shelf or the
deadline), the effects of the run are exactly, item after item in visiting
order (batches
by descending shelf id, input order within a batch): `Disconnected(id)` when
the shelf is offline as the item is reached; otherwise the command with the
payload of the item on the topic of its shelf, `Dispensing(id)`, and once
the wait ends `Dispensed(id)` for the response `"success"` and `Failed(id)`
for any other response or the deadline; the command of an item comes after
the outcome of the previous one. -/
theorem order_visits_items_in_order (s0 : State) (req : Nat) (products : List Product)
    (sc : List (List Ambient × Trigger))
    (hsend : ∀ c ∈ s0.wsClients, c.sendThrows = false)
    (hidle : s0.timers = [])
    (hvalid : ∃ p ∈ products, 1 ≤ p.id ∧ p.id ≤ 32) :
    ((sendOrderMQTT req products s0).andThen (playFrom sc)).out =
      specTrace req s0.wsClients s0.health (specVisit products) sc ∧
    ((sendOrderMQTT req products s0).andThen (playFrom sc)).threw = none := by
  obtain ⟨h1, h2, _⟩ := order_run s0 req products sc hsend hidle hvalid
  exact ⟨h1, h2⟩

/-- C4 amended, at the order `[{id:1,quantity:1},{id:30,quantity:2}]` with shelf 1
online and shelf 5 offline, shelf 1 answering `"success"`: item 30 is
`Disconnected`, item 1 is commanded, `Dispensing`, then `Dispensed`, and the
order completes. -/
theorem order_visits_items_in_order_witness :
    ((∀ c ∈ idleShelf1Online.wsClients, c.sendThrows = false) ∧
      idleShelf1Online.timers = [] ∧
      ∃ p ∈ ([⟨1, 1⟩, ⟨30, 2⟩] : List Product), 1 ≤ p.id ∧ p.id ≤ 32) ∧
    ((sendOrderMQTT 7 [⟨1, 1⟩, ⟨30, 2⟩] idleShelf1Online).andThen
        (playFrom [([], .response 2000 "success")])).out =
      [Output.wsSend 0 (.orderStatus (some 30) .Disconnected),
       Output.mqttPublish "vending/shelf/1" "1,1",
       Output.wsSend 0 (.orderStatus (some 1) .Dispensing),
       Output.wsSend 0 (.orderStatus (some 1) .Dispensed),
       Output.wsSend 0 (.orderComplete true),
       Output.resolved 7] :=
  ⟨⟨by decide, by decide, by decide⟩,
   (order_visits_items_in_order idleShelf1Online 7 [⟨1, 1⟩, ⟨30, 2⟩]
      [([], .response 2000 "success")] (by decide) (by decide) (by decide)).1.trans
     (by decide)⟩

/-! ## Completion -/

theorem emitAll_itemLevel (clients : List WsClient) (id : Option Int) (st : ItemStatus) :
    ∀ o ∈ emitAll clients (.orderStatus id st), o.isItemLevel = true := by
  intro o ho
  simp only [emitAll, List.mem_map] at ho
  obtain ⟨c, _, rfl⟩ := ho
  rfl

/-- The effects the spec states for an order: item level effects only
while the order is not drained, and once it is drained the same followed by
`orderComplete` and the resolution. -/
theorem specTrace_shape (req : Nat) (clients : List WsClient)
    (visit : List (Int × Product)) :
    ∀ (h : Health) (sc : List (List Ambient × Trigger)),
      ∃ pre : List Output, (∀ o ∈ pre, o.isItemLevel = true) ∧
        specTrace req clients h visit sc =
          pre ++ (if specDrained h visit sc then
                    emitAll clients (.orderComplete true) ++ [Output.resolved req]
                  else []) := by
  induction visit with
  | nil =>
    intro h sc
    exact ⟨[], by simp, by simp [specTrace, specDrained]⟩
  | cons kp rest ih =>
    intro h sc
    obtain ⟨k, p⟩ := kp
    by_cases hon : h.online k = true
    · cases sc with
      | nil =>
        refine ⟨Output.mqttPublish ("vending/shelf/" ++ jsNumStr k) (encodeItem p) ::
          emitAll clients (.orderStatus (some p.id) .Dispensing), ?_, ?_⟩
        · intro o ho
          rcases List.mem_cons.mp ho with e | e
          · rw [e]; rfl
          · exact emitAll_itemLevel _ _ _ o e
        · simp [specTrace, specDrained, hon]
      | cons seg sc =>
        obtain ⟨pre, hpre, heq⟩ := ih (seg.1.foldl (fun h a => a.apply h) h) sc
        refine ⟨Output.mqttPublish ("vending/shelf/" ++ jsNumStr k) (encodeItem p) ::
          (emitAll clients (.orderStatus (some p.id) .Dispensing) ++
            (emitAll clients (.orderStatus (some p.id) seg.2.status) ++ pre)), ?_, ?_⟩
        · intro o ho
          rcases List.mem_cons.mp ho with e | e
          · rw [e]; rfl
          · rcases List.mem_append.mp e with e | e
            · exact emitAll_itemLevel _ _ _ o e
            · rcases List.mem_append.mp e with e | e
              · exact emitAll_itemLevel _ _ _ o e
              · exact hpre o e
        · simp [specTrace, specDrained, hon, heq]
    · have hoff : h.online k = false := by simpa using hon
      obtain ⟨pre, hpre, heq⟩ := ih h sc
      refine ⟨emitAll clients (.orderStatus (some p.id) .Disconnected) ++ pre, ?_, ?_⟩
      · intro o ho
        rcases List.mem_append.mp ho with e | e
        · exact emitAll_itemLevel _ _ _ o e
        · exact hpre o e
      · simp [specTrace, specDrained, hoff, heq]

/-- With a wait for every item the order is drained. -/
theorem specDrained_of_length (visit : List (Int × Product)) :
    ∀ (h : Health) (sc : List (List Ambient × Trigger)),
      visit.length ≤ sc.length → specDrained h visit sc = true := by
  induction visit with
  | nil => intro h sc _; rfl
  | cons kp rest ih =>
    intro h sc hlen
    obtain ⟨k, p⟩ := kp
    cases sc with
    | nil => simp at hlen
    | cons seg sc =>
      simp only [List.length_cons, Nat.add_le_add_iff_right] at hlen
      unfold specDrained
      split
      · exact ih _ sc hlen
      · exact ih _ (seg :: sc) (by simp only [List.length_cons]; omega)

/-- C5, amended: provided no client's `send` raises, for every accepted order
processed on its own (from a state with no timer pending) and every list of
waits, whatever
the outcomes of the items: the request is never rejected; while the order
is not drained (`processing` still set) only item level effects occur; once
it is drained the effects are item level effects followed by exactly one
`orderComplete` event with `success: true`, sent to every client, and then
the resolution of the request, as the last effects of the order; and with a
wait for every item the order is drained. -/
theorem order_completes_once_with_success (s0 : State) (req : Nat)
    (products : List Product) (sc : List (List Ambient × Trigger))
    (hsend : ∀ c ∈ s0.wsClients, c.sendThrows = false)
    (hidle : s0.timers = [])
    (hvalid : ∃ p ∈ products, 1 ≤ p.id ∧ p.id ≤ 32) :
    (∀ o ∈ ((sendOrderMQTT req products s0).andThen (playFrom sc)).out,
        o.isRejected = false) ∧
    (((sendOrderMQTT req products s0).andThen (playFrom sc)).st.processing = false →
        ∃ pre : List Output, (∀ o ∈ pre, o.isItemLevel = true) ∧
          ((sendOrderMQTT req products s0).andThen (playFrom sc)).out =
            pre ++ (emitAll s0.wsClients (.orderComplete true) ++ [Output.resolved req])) ∧
    (((sendOrderMQTT req products s0).andThen (playFrom sc)).st.processing = true →
        ∀ o ∈ ((sendOrderMQTT req products s0).andThen (playFrom sc)).out,
          o.isItemLevel = true) ∧
    ((specVisit products).length ≤ sc.length →
        ((sendOrderMQTT req products s0).andThen (playFrom sc)).st.processing = false) := by
  obtain ⟨hout, _, hproc⟩ := order_run s0 req products sc hsend hidle hvalid
  obtain ⟨pre, hpre, hshape⟩ :=
    specTrace_shape req s0.wsClients (specVisit products) s0.health sc
  rw [hout, hproc]
  refine ⟨?_, ?_, ?_, ?_⟩
  · intro o ho
    rw [hshape] at ho
    rcases List.mem_append.mp ho with e | e
    · have := hpre o e
      cases o <;> simp_all [Output.isItemLevel, Output.isRejected]
    · split at e
      · rcases List.mem_append.mp e with e | e
        · simp only [emitAll, List.mem_map] at e
          obtain ⟨c, _, rfl⟩ := e
          rfl
        · rw [List.mem_singleton] at e
          rw [e]; rfl
      · simp at e
  · intro hd
    have hd' : specDrained s0.health (specVisit products) sc = true := by simpa using hd
    refine ⟨pre, hpre, ?_⟩
    rw [hshape, hd']
    rfl
  · intro hd
    have hd' : specDrained s0.health (specVisit products) sc = false := by simpa using hd
    rw [hshape, hd']
    simpa using hpre
  · intro hlen
    rw [specDrained_of_length (specVisit products) s0.health sc hlen]
    rfl

/-- C5 amended, at the order `[{id:1,quantity:1},{id:30,quantity:2}]` with shelf 1
online and shelf 5 offline, the deadline of item 1 elapsing: item 30 is
`Disconnected`, item 1 is `Failed`, and the order still completes with
success. -/
theorem order_completes_once_with_success_witness :
    ((∀ c ∈ idleShelf1Online.wsClients, c.sendThrows = false) ∧
      idleShelf1Online.timers = [] ∧
      (∃ p ∈ ([⟨1, 1⟩, ⟨30, 2⟩] : List Product), 1 ≤ p.id ∧ p.id ≤ 32) ∧
      (specVisit [⟨1, 1⟩, ⟨30, 2⟩]).length ≤
        ([([], .deadline), ([], .deadline)] : List (List Ambient × Trigger)).length) ∧
    ((sendOrderMQTT 7 [⟨1, 1⟩, ⟨30, 2⟩] idleShelf1Online).andThen
        (playFrom [([], .deadline), ([], .deadline)])).st.processing = false ∧
    ∃ pre : List Output, (∀ o ∈ pre, o.isItemLevel = true) ∧
      ((sendOrderMQTT 7 [⟨1, 1⟩, ⟨30, 2⟩] idleShelf1Online).andThen
          (playFrom [([], .deadline), ([], .deadline)])).out =
        pre ++ (emitAll idleShelf1Online.wsClients (.orderComplete true) ++
          [Output.resolved 7]) :=
  ⟨⟨by decide, by decide, by decide, by decide⟩,
   (order_completes_once_with_success idleShelf1Online 7 [⟨1, 1⟩, ⟨30, 2⟩]
      [([], .deadline), ([], .deadline)] (by decide) (by decide) (by decide)).2.2.2
     (by decide),
   (order_completes_once_with_success idleShelf1Online 7 [⟨1, 1⟩, ⟨30, 2⟩]
      [([], .deadline), ([], .deadline)] (by decide) (by decide) (by decide)).2.1
     ((order_completes_once_with_success idleShelf1Online 7 [⟨1, 1⟩, ⟨30, 2⟩]
        [([], .deadline), ([], .deadline)] (by decide) (by decide) (by decide)).2.2.2
       (by decide))⟩

/-! ## Transport disconnect -/

theorem close_eq (h : Health) :
    h.close =
      { shelfStatus := ⟨false, false, false, false, false⟩,
        lastHeartbeat := h.lastHeartbeat } := by
  obtain ⟨⟨a1, a2, a3, a4, a5⟩, hb⟩ := h
  simp [Health.close, PerShelf.set]

/-- C11: for every state, the `"close"` handler leaves every shelf offline,
whatever the last heartbeat times are (they are kept), so `getEsp32Status`
returns false; it has no other effect: `orderQueue`, `currentShelf`,
`currentItems`, the armed timers, `timeoutId` and the completion handle are
unchanged, nothing is sent or published; and a wait that was pending is not
aborted: when its timer fires afterwards the item is announced as `Failed`
and the session goes on, as without the disconnect. -/
theorem onClose_all_offline_session_untouched (s : State) :
    (∀ k : Int, (onClose s).st.health.online k = false) ∧
    getEsp32Status (onClose s).st = false ∧
    onClose s =
      { st := { s with health := { shelfStatus := ⟨false, false, false, false, false⟩,
                                   lastHeartbeat := s.health.lastHeartbeat } },
        out := [], threw := none } ∧
    ((onClose s).st.orderQueue = s.orderQueue ∧ (onClose s).st.currentShelf = s.currentShelf ∧
      (onClose s).st.currentItems = s.currentItems ∧ (onClose s).st.timers = s.timers ∧
      (onClose s).st.timeoutId = s.timeoutId ∧
      (onClose s).st.currentResolve = s.currentResolve ∧
      (onClose s).st.currentReject = s.currentReject) ∧
    (∀ t : Timer, s.timers = [t] → (∀ c ∈ s.wsClients, c.sendThrows = false) →
      onTimeout t.handle (onClose s).st =
        { st := (processNextItem
                  { (onClose s).st with timers := [],
                                        currentItems := s.currentItems.tail }).st,
          out := emitAll s.wsClients (.orderStatus (jsParseInt t.id) .Failed) ++
                   (processNextItem
                     { (onClose s).st with timers := [],
                                           currentItems := s.currentItems.tail }).out,
          threw := (processNextItem
                     { (onClose s).st with timers := [],
                                           currentItems := s.currentItems.tail }).threw }) := by
  have hc : onClose s =
      { st := { s with health := { shelfStatus := ⟨false, false, false, false, false⟩,
                                   lastHeartbeat := s.health.lastHeartbeat } },
        out := [], threw := none } := by
    unfold onClose
    rw [close_eq]
  refine ⟨?_, ?_, hc, ?_, ?_⟩
  · intro k
    rw [hc]
    simp only [Health.online, PerShelf.get?]
    split_ifs <;> rfl
  · rw [hc]
    rfl
  · rw [hc]
    exact ⟨rfl, rfl, rfl, rfl, rfl, rfl, rfl⟩
  · intro t ht hs
    exact onTimeout_armed (onClose s).st t (by rw [hc]; exact ht) (by rw [hc]; exact hs)

/-- C11 at a state awaiting shelf 1, heard from at time 1000, with its timer
0 armed: after the disconnect no shelf is online and the timer still fires
with `Failed` for item 1. -/
theorem onClose_all_offline_session_untouched_witness :
    (awaitingShelf1.timers = [{ handle := 0, delay := 15000, id := "1" }] ∧
      ∀ c ∈ awaitingShelf1.wsClients, c.sendThrows = false) ∧
    getEsp32Status awaitingShelf1 = true ∧
    getEsp32Status (onClose awaitingShelf1).st = false ∧
    (onClose awaitingShelf1).st.timers = [{ handle := 0, delay := 15000, id := "1" }] ∧
    onTimeout 0 (onClose awaitingShelf1).st =
      { st := (processNextItem
                { (onClose awaitingShelf1).st with
                  timers := [], currentItems := awaitingShelf1.currentItems.tail }).st,
        out := emitAll awaitingShelf1.wsClients (.orderStatus (jsParseInt "1") .Failed) ++
                 (processNextItem
                   { (onClose awaitingShelf1).st with
                     timers := [], currentItems := awaitingShelf1.currentItems.tail }).out,
        threw := (processNextItem
                   { (onClose awaitingShelf1).st with
                     timers := [], currentItems := awaitingShelf1.currentItems.tail }).threw } :=
  ⟨⟨by decide, by decide⟩, by decide,
   (onClose_all_offline_session_untouched awaitingShelf1).2.1,
   (onClose_all_offline_session_untouched awaitingShelf1).2.2.2.1.2.2.2.1,
   (onClose_all_offline_session_untouched awaitingShelf1).2.2.2.2
     { handle := 0, delay := 15000, id := "1" } (by decide) (by decide)⟩

/-! ## Orders that meet a raising client -/

/-- An accepted order starts with the first batch of its queue; an
exception of the first turn rejects the promise. -/
theorem sendOrderMQTT_accepted (req : Nat) (products : List Product) (s : State)
    (b : Batch) (rest : List Batch) (hq : buildQueue products = (b :: rest, true)) :
    sendOrderMQTT req products s =
      match (processNextItem
              { s with orderQueue := rest, currentResolve := some req,
                       currentReject := some req, processing := true,
                       currentShelf := some b.shelf, currentItems := b.items }).threw with
      | some c =>
        { st := (processNextItem
                  { s with orderQueue := rest, currentResolve := some req,
                           currentReject := some req, processing := true,
                           currentShelf := some b.shelf, currentItems := b.items }).st,
          out := (processNextItem
                  { s with orderQueue := rest, currentResolve := some req,
                           currentReject := some req, processing := true,
                           currentShelf := some b.shelf, currentItems := b.items }).out ++
                   [Output.rejected req (OrderError.sendFailed c)],
          threw := none }
      | none =>
        processNextItem
          { s with orderQueue := rest, currentResolve := some req,
                   currentReject := some req, processing := true,
                   currentShelf := some b.shelf, currentItems := b.items } := by
  unfold sendOrderMQTT
  simp only [hq, Bool.not_true, Bool.false_eq_true, if_false]
  rw [processNextShelf_cons _ b rest rfl]

/-- C4, counterexample: the order `[{id:30,quantity:2},{id:31,quantity:1}]`
with every shelf offline and two clients of which the second raises on
`send`: the first client is told `Disconnected` for item 30, the exception
rejects the request, and item 31 is never visited (no event for it, the item
still in `currentItems` behind item 30), whereas the claim has
`Disconnected` for item 31 follow. -/
theorem order_visit_stops_at_raising_send :
    ((∃ p ∈ ([⟨30, 2⟩, ⟨31, 1⟩] : List Product), 1 ≤ p.id ∧ p.id ≤ 32) ∧
      allOfflineRaising.timers = []) ∧
    ((sendOrderMQTT 7 [⟨30, 2⟩, ⟨31, 1⟩] allOfflineRaising).andThen (playFrom [])).out =
      [Output.wsSend 0 (.orderStatus (some 30) .Disconnected),
       Output.rejected 7 (OrderError.sendFailed 1)] ∧
    ((sendOrderMQTT 7 [⟨30, 2⟩, ⟨31, 1⟩] allOfflineRaising).andThen
        (playFrom [])).st.currentItems = ["30,2", "31,1"] ∧
    Output.wsSend 0 (.orderStatus (some 31) .Disconnected) ∈
      specTrace 7 allOfflineRaising.wsClients allOfflineRaising.health
        (specVisit [⟨30, 2⟩, ⟨31, 1⟩]) [] ∧
    ((sendOrderMQTT 7 [⟨30, 2⟩, ⟨31, 1⟩] allOfflineRaising).andThen (playFrom [])).out ≠
      specTrace 7 allOfflineRaising.wsClients allOfflineRaising.health
        (specVisit [⟨30, 2⟩, ⟨31, 1⟩]) [] := by
  have hsend : sendOrderMQTT 7 [⟨30, 2⟩, ⟨31, 1⟩] allOfflineRaising =
      { st := { allOfflineRaising with
                orderQueue := [], currentResolve := some 7, currentReject := some 7,
                processing := true, currentShelf := some 5,
                currentItems := ["30,2", "31,1"] },
        out := [Output.wsSend 0 (.orderStatus (some 30) .Disconnected),
                Output.rejected 7 (OrderError.sendFailed 1)],
        threw := none } := by
    rw [sendOrderMQTT_accepted 7 _ _ { shelf := 5, items := ["30,2", "31,1"] } []
      (by decide)]
    rw [processNextItem_offline_raising _ "30,2" ["31,1"]
      [{ ident := 0, sendThrows := false }] { ident := 1, sendThrows := true } []
      rfl (by decide) (by decide) (by decide) (by decide)]
    decide
  rw [hsend]
  decide

/-- C5, counterexample: the order `[{id:1,quantity:1}]` with shelf 1 online
and two clients of which the second raises on `send`: the order starts (the
command `1,1` is published and the first client is told `Dispensing`), then
the exception rejects the request. -/
theorem order_rejected_after_start_on_raising_send :
    ((∃ p ∈ ([⟨1, 1⟩] : List Product), 1 ≤ p.id ∧ p.id ≤ 32) ∧
      idleShelf1OnlineRaising.timers = []) ∧
    ((sendOrderMQTT 7 [⟨1, 1⟩] idleShelf1OnlineRaising).andThen (playFrom [])).out =
      [Output.mqttPublish "vending/shelf/1" "1,1",
       Output.wsSend 0 (.orderStatus (some 1) .Dispensing),
       Output.rejected 7 (OrderError.sendFailed 1)] ∧
    ¬ (∀ o ∈ ((sendOrderMQTT 7 [⟨1, 1⟩] idleShelf1OnlineRaising).andThen (playFrom [])).out,
        o.isRejected = false) := by
  have hsend : sendOrderMQTT 7 [⟨1, 1⟩] idleShelf1OnlineRaising =
      { st := { idleShelf1OnlineRaising with
                orderQueue := [], currentResolve := some 7, currentReject := some 7,
                processing := true, currentShelf := some 1, currentItems := ["1,1"] },
        out := [Output.mqttPublish "vending/shelf/1" "1,1",
                Output.wsSend 0 (.orderStatus (some 1) .Dispensing),
                Output.rejected 7 (OrderError.sendFailed 1)],
        threw := none } := by
    rw [sendOrderMQTT_accepted 7 _ _ { shelf := 1, items := ["1,1"] } [] (by decide)]
    rw [processNextItem_online_raising _ "1,1" []
      [{ ident := 0, sendThrows := false }] { ident := 1, sendThrows := true } []
      rfl (by decide) (by decide) (by decide) (by decide)]
    decide
  rw [hsend]
  decide

end Vending
